import Mathlib

/-!
# multi-pb: tenant record store and process supervisor

A shallow embedding of `internal/config/config.go` (the tenant record store) and
`internal/manager/manager.go` (the process supervisor), followed by theorems about
port allocation, ID normalisation, the lifecycle operations, the crash monitor, the
reload channel, the agreement of status and registry, unknown tenants, data directories,
failing writes, the registry lock and the tail of the log.

Conventions of the embedding.

* A Go `string` is a sequence of bytes: `Bytes := List Nat`, each element a byte value.
  Byte arithmetic is taken modulo 256.
* A Go `int` is a 64-bit two's-complement integer: it is an `Int`, and the result of an
  addition is wrapped by `wrapInt64`.
* The map `map[string]*models.Tenant` of the store is a list of tenant records, each
  stored under its own `ID`: a lookup by key is a lookup by `ID`.  The list stands for
  the maps in which every record sits under the key of its `ID`.  Every writer of the
  map, `AddTenant` and `UpdateTenant`, indexes by `tenant.ID`, and `save` writes the map
  as it is, so these are the maps of every run that begins without a configuration file
  or with one that the program wrote.  `load` takes the keys of the file unchecked; a
  file edited so that a record sits under another key is outside the embedding, and the
  statements about boot carry `keyedByID` as a hypothesis.  The order of the list
  carries no meaning.
* `filepath.Join` is `joinPath`, which cleans its result as `filepath.Clean` does on a
  system whose separator is `/`.
* A tenant in the map is a pointer: an assignment to a field of a tenant obtained from
  `GetTenant` changes the record in the map.  Every such assignment in the source is
  followed by `UpdateTenant`, whose in-memory effect (`s.tenants[tenant.ID] = tenant`)
  happens before, and whatever the outcome of, the write to disk.
* Everything the operating system decides (whether a directory can be created, whether
  the child is alive, what the clock reads, whether the configuration file can be
  written) is an explicit argument of the operation.
-/

namespace MultiPB

/-- A Go string, as its bytes. -/
abbrev Bytes := List Nat

/-- The bytes of an ASCII literal. -/
def ascii (s : String) : Bytes := s.toList.map Char.toNat

/-- Two's-complement wrap-around of a Go `int` (64 bits). -/
def wrapInt64 (x : Int) : Int :=
  (x + 9223372036854775808) % 18446744073709551616 - 9223372036854775808

/-- The largest Go `int`. -/
def maxInt64 : Int := 9223372036854775807

/-! ## models.Tenant -/

/-- The record `models.Tenant`; times are clock readings. -/
structure Tenant where
  ID : Bytes
  Name : Bytes
  Subdomain : Bytes
  Port : Int
  Status : String
  CreatedAt : Nat
  UpdatedAt : Nat
  PID : Int
  DataDir : Bytes
deriving DecidableEq, Repr

/-- The request body `models.CreateTenantRequest`. -/
structure CreateTenantRequest where
  Name : Bytes
  Subdomain : Bytes
deriving DecidableEq, Repr

/-! ## config.Store -/

/-- The part of `config.Store` the supervisor uses: the tenant map and the data root.
The map is held as the list of its records, the key of a record being its `ID`. -/
structure Store where
  tenants : List Tenant
  dataDir : Bytes
deriving DecidableEq, Repr

namespace Store

/-- `Store.GetTenant`: the record under the key `id`, that is the record whose `ID` is
`id`, or `none` for Go's nil. -/
def GetTenant (s : Store) (id : Bytes) : Option Tenant :=
  s.tenants.find? (fun t => t.ID = id)

/-- `Store.GetTenants`: every record of the map. -/
def GetTenants (s : Store) : List Tenant := s.tenants

/-- The assignment `s.tenants[tenant.ID] = tenant`. -/
def put (s : Store) (tenant : Tenant) : Store :=
  { s with tenants := tenant :: s.tenants.filter (fun t => t.ID ≠ tenant.ID) }

/-- `Store.AddTenant`: the map is assigned, then `save` runs; `saveOK` is whether the
write to disk succeeded, and the second component is whether `AddTenant` returned nil. -/
def AddTenant (s : Store) (tenant : Tenant) (saveOK : Bool) : Store × Bool :=
  (s.put tenant, saveOK)

/-- `Store.UpdateTenant`: same body as `AddTenant`. -/
def UpdateTenant (s : Store) (tenant : Tenant) (saveOK : Bool) : Store × Bool :=
  (s.put tenant, saveOK)

/-- `Store.RemoveTenant`: `delete(s.tenants, id)`, then `save`. -/
def RemoveTenant (s : Store) (id : Bytes) (saveOK : Bool) : Store × Bool :=
  ({ s with tenants := s.tenants.filter (fun t => t.ID ≠ id) }, saveOK)

/-- `Store.GetNextPort`: the loop keeps the largest port seen, starting from 8080, and
the function returns that value plus one (a Go `int` addition). -/
def GetNextPort (s : Store) : Int :=
  let maxPort := s.tenants.foldl
    (fun maxPort t => if t.Port > maxPort then t.Port else maxPort) 8080
  wrapInt64 (maxPort + 1)

/-- `Store.GetDataDir`. -/
def GetDataDir (s : Store) : Bytes := s.dataDir

end Store

/-! ## sanitizeID -/

/-- The function `sanitizeID` of manager.go: one pass over the bytes of `s`, appending to
`result`. -/
def sanitizeID (s : Bytes) : Bytes :=
  s.foldl (fun result c =>
    if (c ≥ 97 ∧ c ≤ 122) ∨ (c ≥ 48 ∧ c ≤ 57) ∨ c = 45 then result ++ [c]
    else if c ≥ 65 ∧ c ≤ 90 then result ++ [(c + 32) % 256]
    else if c = 95 ∨ c = 32 then result ++ [45]
    else result) []

/-! ## filepath.Join -/

/-- The elements of a path: the pieces between separator bytes, `cur` being the piece
that is being read. -/
def splitSlash : Bytes → Bytes → List Bytes
  | [], cur => [cur]
  | c :: rest, cur => if c = 47 then cur :: splitSlash rest [] else splitSlash rest (cur ++ [c])

/-- One element in the loop of `filepath.Clean`, `out` being the elements kept so far: an
empty element and `.` are skipped; `..` removes the last element kept when there is one
that is not itself `..`, is dropped at the root of a rooted path, and is kept otherwise;
any other element is kept. -/
def cleanStep (rooted : Bool) (out : List Bytes) (elem : Bytes) : List Bytes :=
  if elem = [] ∨ elem = [46] then out
  else if elem = [46, 46] then
    match out.getLast? with
    | some last => if last = [46, 46] then out ++ [elem] else out.dropLast
    | none => if rooted then out else out ++ [elem]
  else out ++ [elem]

/-- Elements joined by single separators. -/
def joinSlash : List Bytes → Bytes
  | [] => []
  | [e] => e
  | e :: rest => e ++ [47] ++ joinSlash rest

/-- `filepath.Clean` on a system whose separator is `/`: the empty path becomes `.`; the
elements are reduced by `cleanStep` and joined again, after a `/` when the path is
rooted; a path that is not rooted and keeps no element becomes `.`. -/
def cleanPath (path : Bytes) : Bytes :=
  if path = [] then [46]
  else
    let rooted := path.head? = some 47
    let out := (splitSlash path []).foldl (cleanStep rooted) []
    if rooted then 47 :: joinSlash out
    else if out = [] then [46]
    else joinSlash out

/-- `filepath.Join(dir, elem)`: the elements from the first one that is not empty are
joined by `/` and the result is cleaned; when both are empty the result is empty. -/
def joinPath (dir elem : Bytes) : Bytes :=
  if dir ≠ [] then cleanPath (dir ++ [47] ++ elem)
  else if elem ≠ [] then cleanPath elem
  else []

/-! ## The supervisor's state -/

/-- The struct `manager.Process`.  `Tenant` is the ID of the tenant the pointer refers
to, `CmdProcess` is `Cmd.Process` (the pid of the started child, `none` for nil) and
`ctx` names the cancellation scope created by `context.WithCancel`. -/
structure Process where
  Tenant : Bytes
  CmdProcess : Option Nat
  StartedAt : Nat
  ctx : Nat
deriving DecidableEq, Repr

/-- What an operation does to the world outside the supervisor's memory. -/
inductive Effect where
  | mkdirAll (path : Bytes)
  | spawn (id : Bytes) (dir : Bytes) (port : Int) (ctx : Nat)
  | signalTerm (pid : Nat)
  | kill (pid : Nat)
  | removeAll (path : Bytes)
  | goMonitor (id : Bytes) (pid : Nat)
deriving DecidableEq, Repr

/-- A buffered channel of `struct{}`: only its capacity and the number of buffered
values matter. -/
structure Chan where
  cap : Nat
  len : Nat
deriving DecidableEq, Repr

/-- The struct `manager.Manager` with the world it acts on: `processes` is the registry
`map[string]*Process` (a list of entries, one per key), `canceled` lists the scopes whose
`cancel` has been called, `nextCtx` is the next fresh scope, `logs` holds the content of
the log file of each tenant that has one (the path of the file is a function of the ID),
and `effects` records, latest first, what was done to the operating system. -/
structure Manager where
  store : Store
  processes : List (Bytes × Process)
  caddyReload : Chan
  canceled : List Nat
  nextCtx : Nat
  logs : List (Bytes × Bytes)
  effects : List Effect
deriving DecidableEq, Repr

/-- The errors the supervisor returns, one constructor per `fmt.Errorf` site (a wrapped
store error for `saveFailed`, the error of `StartTenant` inside `startTenantFailed`). -/
inductive Err where
  | tenantNotFound (id : Bytes)
  | dataDirFailed
  | binaryNotFound
  | startFailed
  | processNil
  | cancelled
  | exitedImmediately (logLines : Bytes)
  | diedDuringStartup (logLines : Bytes)
  | portNotListening (port : Int) (logLines : Bytes)
  | alreadyExists (subdomain : Bytes)
  | saveFailed
  | startTenantFailed (e : Err)
deriving DecidableEq, Repr

/-- The struct `models.CreateTenantResponse`. -/
structure CreateTenantResponse where
  Tenant : Tenant
  SetupURL : Bytes
deriving DecidableEq, Repr

namespace Manager

/-- `NewManager`: an empty registry and a reload channel made with
`make(chan struct{}, 10)`; no scope, log file or effect exists yet. -/
def NewManager (store : Store) : Manager :=
  { store := store, processes := [], caddyReload := { cap := 10, len := 0 },
    canceled := [], nextCtx := 0, logs := [], effects := [] }

/-- The lookup `m.processes[id]`. -/
def lookupProcess (m : Manager) (id : Bytes) : Option Process :=
  (m.processes.find? (fun e => e.1 = id)).map (fun e => e.2)

/-- The assignment `m.processes[id] = proc`. -/
def register (m : Manager) (id : Bytes) (proc : Process) : Manager :=
  { m with processes := (id, proc) :: m.processes.filter (fun e => e.1 ≠ id) }

/-- The statement `delete(m.processes, id)`. -/
def unregister (m : Manager) (id : Bytes) : Manager :=
  { m with processes := m.processes.filter (fun e => e.1 ≠ id) }

/-- A call of the `cancel` function of scope `ctx`. -/
def cancel (m : Manager) (ctx : Nat) : Manager :=
  { m with canceled := ctx :: m.canceled }

/-- Whether `<-ctx.Done()` is ready. -/
def isCanceled (m : Manager) (ctx : Nat) : Bool := decide (ctx ∈ m.canceled)

/-- Record an effect. -/
def emit (m : Manager) (e : Effect) : Manager :=
  { m with effects := e :: m.effects }

/-- The content of the log file of tenant `id`, if the file exists. -/
def logOf (m : Manager) (id : Bytes) : Option Bytes :=
  (m.logs.find? (fun e => e.1 = id)).map (fun e => e.2)

/-- Replace the content of the log file of tenant `id`. -/
def setLog (m : Manager) (id : Bytes) (content : Bytes) : Manager :=
  { m with logs := (id, content) :: m.logs.filter (fun e => e.1 ≠ id) }

/-- Append to the log file of tenant `id`, when it exists. -/
def appendLog (m : Manager) (id : Bytes) (more : Bytes) : Manager :=
  match m.logOf id with
  | some content => m.setLog id (content ++ more)
  | none => m

/-- `Manager.triggerCaddyReload`: a send on the channel inside a `select` with an empty
`default`, so the value is buffered when there is room and dropped otherwise. -/
def triggerCaddyReload (m : Manager) : Manager :=
  if m.caddyReload.len < m.caddyReload.cap then
    { m with caddyReload := { m.caddyReload with len := m.caddyReload.len + 1 } }
  else m

/-! ### Reading the log -/

/-- The pieces of a file between newline bytes, as `bufio.ScanLines` cuts them; `cur` is
the piece being read.  A last piece without a newline counts when it is not empty. -/
def splitLines : Bytes → Bytes → List Bytes
  | [], cur => if cur = [] then [] else [cur]
  | c :: rest, cur => if c = 10 then cur :: splitLines rest [] else splitLines rest (cur ++ [c])

/-- One trailing carriage return is dropped from a line. -/
def dropCR (line : Bytes) : Bytes :=
  if line.getLast? = some 13 then line.dropLast else line

/-- The tokens `scanner.Scan` yields with the default buffer: scanning stops at the first
line that does not fit in 64 KiB. -/
def scanLines (content : Bytes) : List Bytes :=
  ((splitLines content []).takeWhile (fun l => l.length < 65536)).map dropCR

/-- `strings.Join(result, "\n")`. -/
def joinLines : List Bytes → Bytes
  | [] => []
  | [l] => l
  | l :: rest => l ++ [10] ++ joinLines rest

/-- `Manager.readLastLogLines`: the empty string when the file cannot be opened; else
every scanned line is appended to `result`, whose head is cut off whenever it grows
beyond `lines`. -/
def readLastLogLines (m : Manager) (id : Bytes) (lines : Int) : Bytes :=
  match m.logOf id with
  | none => []
  | some content =>
    let result := (scanLines content).foldl
      (fun result l =>
        let result := result ++ [l]
        if (result.length : Int) > lines then result.drop 1 else result) []
    if result.length = 0 then [] else joinLines result

/-! ### StartTenant -/

/-- What the world answers during one call of `StartTenant`. -/
structure StartEnv where
  /-- `os.MkdirAll(dataDir)` returned nil. -/
  mkdirOK : Bool
  /-- `os.Stat` of the binary did not report that it is missing. -/
  binaryExists : Bool
  /-- `os.MkdirAll` of the log directory returned nil (the result is ignored). -/
  logDirOK : Bool
  /-- `os.OpenFile` of the log file returned nil. -/
  logOpenOK : Bool
  /-- The text of `time.Now().Format(time.RFC3339)` in the startup marker. -/
  stamp : Bytes
  /-- `cmd.Start()` returned nil. -/
  startOK : Bool
  /-- `cmd.Process` after `cmd.Start()`: the pid of the child, or `none` for nil. -/
  pid : Option Nat
  /-- What the child has written to its output by the time the log is read. -/
  childLog : Bytes
  /-- The first existence probe `Signal(0)`, after the settle delay, returned nil. -/
  settleAlive : Bool
  /-- For the polling round `i`: the existence probe returned nil, and the dial succeeded. -/
  probes : Nat → Bool × Bool
  /-- `time.Now()` for `StartedAt`. -/
  startedAt : Nat
  /-- `time.Now()` for `UpdatedAt`. -/
  updatedAt : Nat
  /-- The write of `UpdateTenant` to disk succeeded (the result is ignored). -/
  saveOK : Bool

/-- How the readiness loop ends. -/
inductive PollResult where
  | ready (i : Nat)
  | died (i : Nat)
  | timedOut
  | exhausted
deriving DecidableEq, Repr

/-- The loop `for i := 0; i < maxRetries; i++` of `StartTenant` from round `i`, with
`left` rounds to go: the process is probed first, then the port; the last round without
a connection is the timeout.  `exhausted` is the loop condition turning false. -/
def pollLoop (probes : Nat → Bool × Bool) (maxRetries : Nat) : Nat → Nat → PollResult
  | _, 0 => .exhausted
  | i, left + 1 =>
    if !(probes i).1 then .died i
    else if (probes i).2 then .ready i
    else if i = maxRetries - 1 then .timedOut
    else pollLoop probes maxRetries (i + 1) left

/-- The binary the supervisor runs. -/
def pocketbase : Bytes := ascii "/usr/local/bin/pocketbase"

/-- The two marker lines written to a fresh log: the tenant, its port and the time, then
the path of the command and its arguments `serve --dir=... --http=127.0.0.1:port`. -/
def startupMarker (id dataDir : Bytes) (port : Int) (stamp : Bytes) : Bytes :=
  ascii "[multi-pb] Starting PocketBase for tenant " ++ id ++ ascii " on port "
    ++ ascii (toString port) ++ ascii " at " ++ stamp ++ [10]
    ++ ascii "[multi-pb] Command: " ++ pocketbase ++ ascii " [serve --dir=" ++ dataDir
    ++ ascii " --http=127.0.0.1:" ++ ascii (toString port) ++ ascii "]" ++ [10]

/-- The test `proc, exists := m.processes[id]; exists && proc.Cmd.Process != nil`. -/
def alreadyRunning (m : Manager) (id : Bytes) : Bool :=
  match m.lookupProcess id with
  | some proc => proc.CmdProcess.isSome
  | none => false

/-- The directory of the log files, `<data root>/.multi-pb/logs`. -/
def logDir (m : Manager) : Bytes :=
  joinPath (joinPath m.store.GetDataDir (ascii ".multi-pb")) (ascii "logs")

/-- The log sink of `StartTenant` (source lines 159-174): the directory of the log is
made, the file is opened with truncation and the marker is written.  When the file
cannot be opened the old content stays. -/
def openLog (m : Manager) (id dataDir : Bytes) (port : Int) (env : StartEnv) : Manager :=
  let m := if env.logDirOK then m.emit (.mkdirAll m.logDir) else m
  if env.logOpenOK then m.setLog id (startupMarker id dataDir port env.stamp) else m

/-- The output of the child, which goes to the log file when it was opened. -/
def childOutput (m : Manager) (id : Bytes) (env : StartEnv) : Manager :=
  if env.logOpenOK then m.appendLog id env.childLog else m

/-- The registration at the end of `StartTenant` (source lines 271-286): the registry
entry, the record set to `running` with the pid and written back, and the monitor
started as a goroutine. -/
def registerStarted (m : Manager) (id : Bytes) (tenant : Tenant) (pid ctx : Nat)
    (env : StartEnv) : Manager :=
  let m := m.register id
    { Tenant := id, CmdProcess := some pid, StartedAt := env.startedAt, ctx := ctx }
  let tenant := { tenant with Status := "running", PID := pid, UpdatedAt := env.updatedAt }
  let m := { m with store := (m.store.UpdateTenant tenant env.saveOK).1 }
  m.emit (.goMonitor id pid)

/-- The liveness confirmation of `StartTenant` (source lines 193-290) for the child `pid`
started under scope `ctx`: the settle check, the readiness loop of 30 rounds, and the
registration when the loop ends without a failure. -/
def confirmLiveness (m : Manager) (id : Bytes) (tenant : Tenant) (pid ctx : Nat)
    (env : StartEnv) : Manager × Option Err :=
  if !env.settleAlive then
    if m.isCanceled ctx then (m.cancel ctx, some .cancelled)
    else
      let logLines := m.readLastLogLines id 10
      (m.cancel ctx, some (.exitedImmediately logLines))
  else
    match pollLoop env.probes 30 0 30 with
    | .died _ =>
      let logLines := m.readLastLogLines id 25
      (m.cancel ctx, some (.diedDuringStartup logLines))
    | .timedOut =>
      let logLines := m.readLastLogLines id 25
      (m.cancel ctx, some (.portNotListening tenant.Port logLines))
    | _ => (m.registerStarted id tenant pid ctx env, none)

/-- The spawn of `StartTenant` (source lines 150-191): a fresh scope, the log sink,
`cmd.Start()` with the two failure exits, then the liveness confirmation. -/
def spawnChild (m : Manager) (id : Bytes) (tenant : Tenant) (dataDir : Bytes)
    (env : StartEnv) : Manager × Option Err :=
  let ctx := m.nextCtx
  let m := { m with nextCtx := ctx + 1 }
  let m := m.openLog id dataDir tenant.Port env
  if !env.startOK then (m.cancel ctx, some .startFailed)
  else
    let m := m.emit (.spawn id dataDir tenant.Port ctx)
    let m := m.childOutput id env
    match env.pid with
    | none => (m.cancel ctx, some .processNil)
    | some pid => m.confirmLiveness id tenant pid ctx env

/-- `Manager.StartTenant` (source lines 125-148, continued by `spawnChild`).  Returns
the new state and the error (`none` for nil). -/
def StartTenant (m : Manager) (id : Bytes) (env : StartEnv) : Manager × Option Err :=
  match m.store.GetTenant id with
  | none => (m, some (.tenantNotFound id))
  | some tenant =>
    if m.alreadyRunning id then (m, none)
    else
      let dataDir := joinPath m.store.GetDataDir id
      if !env.mkdirOK then (m, some .dataDirFailed)
      else
        let m := m.emit (.mkdirAll dataDir)
        if !env.binaryExists then (m, some .binaryNotFound)
        else m.spawnChild id tenant dataDir env

/-- The state of `StartTenant` once the child has been spawned and has written its
output: the data directory made, the scope allotted, the log opened, `cmd.Start()` done. -/
def spawned (m : Manager) (id : Bytes) (tenant : Tenant) (env : StartEnv) : Manager :=
  let dataDir := joinPath m.store.GetDataDir id
  let m1 := m.emit (.mkdirAll dataDir)
  (((({ m1 with nextCtx := m1.nextCtx + 1 } : Manager).openLog id dataDir tenant.Port env).emit
    (.spawn id dataDir tenant.Port m.nextCtx)).childOutput id env)

/-! ### StopTenant -/

/-- What the world answers during one call of `StopTenant`. -/
structure StopEnv where
  /-- The child exited within the five seconds of grace (`done` fired first). -/
  exitedInGrace : Bool
  /-- `time.Now()` for `UpdatedAt`. -/
  now : Nat
  /-- The write of `UpdateTenant` to disk succeeded (the result is ignored). -/
  saveOK : Bool

/-- First critical section of `StopTenant`: `proc, exists := m.processes[id]`. -/
def stopLookup (m : Manager) (id : Bytes) : Option Process := m.lookupProcess id

/-- Second part of `StopTenant`: `proc.cancel()`, then, for a started child, SIGTERM and
a kill if it is still there after the grace period. -/
def stopSignal (m : Manager) (proc : Process) (env : StopEnv) : Manager :=
  let m := m.cancel proc.ctx
  match proc.CmdProcess with
  | some pid =>
    let m := m.emit (.signalTerm pid)
    if env.exitedInGrace then m else m.emit (.kill pid)
  | none => m

/-- Second critical section of `StopTenant`: `delete(m.processes, id)`. -/
def stopUnregister (m : Manager) (id : Bytes) : Manager := m.unregister id

/-- Last part of `StopTenant`: the record, if there is one, becomes `stopped` with
pid 0 and is written back. -/
def stopPersist (m : Manager) (id : Bytes) (env : StopEnv) : Manager :=
  match m.store.GetTenant id with
  | some tenant =>
    let tenant := { tenant with Status := "stopped", PID := 0, UpdatedAt := env.now }
    { m with store := (m.store.UpdateTenant tenant env.saveOK).1 }
  | none => m

/-- `Manager.StopTenant`, run without interruption: its four parts in order.  It returns
nil on every path. -/
def StopTenant (m : Manager) (id : Bytes) (env : StopEnv) : Manager × Option Err :=
  match m.stopLookup id with
  | none => (m, none)
  | some proc =>
    let m := m.stopSignal proc env
    let m := m.stopUnregister id
    let m := m.stopPersist id env
    (m, none)

/-! ### DeleteTenant and CreateTenant -/

/-- What the world answers during one call of `DeleteTenant`. -/
structure DeleteEnv where
  /-- The answers for the call of `StopTenant`. -/
  stop : StopEnv
  /-- The write of `RemoveTenant` to disk succeeded. -/
  saveOK : Bool

/-- `Manager.DeleteTenant`: stop, remove the record, remove the data on request (the
call of `os.RemoveAll` is recorded, its error is only logged), signal a reload. -/
def DeleteTenant (m : Manager) (id : Bytes) (deleteData : Bool) (env : DeleteEnv) :
    Manager × Option Err :=
  match m.StopTenant id env.stop with
  | (m, some e) => (m, some e)
  | (m, none) =>
    let r := m.store.RemoveTenant id env.saveOK
    let m := { m with store := r.1 }
    if !r.2 then (m, some .saveFailed)
    else
      let m := if deleteData then m.emit (.removeAll (joinPath m.store.GetDataDir id)) else m
      let m := m.triggerCaddyReload
      (m, none)

/-- What the world answers during one call of `CreateTenant`. -/
structure CreateEnv where
  /-- `os.MkdirAll(dataDir)` returned nil. -/
  mkdirOK : Bool
  /-- `time.Now()` for `CreatedAt`. -/
  createdAt : Nat
  /-- `time.Now()` for `UpdatedAt`. -/
  updatedAt : Nat
  /-- The write of `AddTenant` to disk succeeded. -/
  saveOK : Bool
  /-- The answers for the call of `StartTenant`. -/
  start : StartEnv
  /-- The link `extractSetupURL` finds in the log (empty when there is none). -/
  setupURL : Bytes

/-- `Manager.CreateTenant`.  The tenant of the response is the record of the store, which
`StartTenant` has updated through the shared pointer. -/
def CreateTenant (m : Manager) (req : CreateTenantRequest) (env : CreateEnv) :
    Manager × Except Err CreateTenantResponse :=
  let id := sanitizeID req.Subdomain
  if (m.store.GetTenant id).isSome then (m, .error (.alreadyExists req.Subdomain))
  else
    let port := m.store.GetNextPort
    let dataDir := joinPath m.store.GetDataDir id
    if !env.mkdirOK then (m, .error .dataDirFailed)
    else
      let m := m.emit (.mkdirAll dataDir)
      let tenant : Tenant :=
        { ID := id, Name := req.Name, Subdomain := req.Subdomain, Port := port,
          Status := "stopped", CreatedAt := env.createdAt, UpdatedAt := env.updatedAt,
          PID := 0, DataDir := dataDir }
      let r := m.store.AddTenant tenant env.saveOK
      let m := { m with store := r.1 }
      if !r.2 then (m, .error .saveFailed)
      else
        match m.StartTenant id env.start with
        | (m, some e) => (m, .error (.startTenantFailed e))
        | (m, none) =>
          let m := m.triggerCaddyReload
          (m, .ok { Tenant := (m.store.GetTenant id).getD tenant, SetupURL := env.setupURL })

/-! ### The crash monitor -/

/-- What the world answers during one run of `monitorProcess` after the child exits. -/
structure MonitorEnv where
  /-- `cmd.Wait()` returned a non-nil error. -/
  waitErr : Bool
  /-- `time.Now()` for `UpdatedAt`. -/
  now : Nat
  /-- The write of `UpdateTenant` to disk succeeded (the result is ignored). -/
  saveOK : Bool
  /-- The answers for the call of `StartTenant` after a crash. -/
  restart : StartEnv

/-- The critical section of `monitorProcess`: the registry entry is read and, when there
is one, deleted. -/
def monitorUnregister (m : Manager) (id : Bytes) : Manager × Option Process :=
  match m.lookupProcess id with
  | some proc => (m.unregister id, some proc)
  | none => (m, none)

/-- The flag `wasIntentionallyStopped`: false unless `proc` is not nil and its scope is
done. -/
def wasIntentionallyStopped (m : Manager) (proc : Option Process) : Bool :=
  match proc with
  | some p => m.isCanceled p.ctx
  | none => false

/-- The update of the record in `monitorProcess`; the second component is the condition
`err != nil && !wasIntentionallyStopped` of the restart. -/
def monitorClassify (m : Manager) (id : Bytes) (proc : Option Process) (env : MonitorEnv) :
    Manager × Bool :=
  match m.store.GetTenant id with
  | none => (m, false)
  | some tenant =>
    let stopped := m.wasIntentionallyStopped proc
    let status :=
      if env.waitErr && !stopped then "error"
      else if stopped then "stopped"
      else "stopped"
    let tenant := { tenant with Status := status, PID := 0, UpdatedAt := env.now }
    ({ m with store := (m.store.UpdateTenant tenant env.saveOK).1 },
      env.waitErr && !stopped)

/-- `Manager.monitorProcess` from the return of `cmd.Wait()`, run without interruption.
The second component is whether `StartTenant` was invoked. -/
def monitorProcess (m : Manager) (id : Bytes) (env : MonitorEnv) : Manager × Bool :=
  let r := m.monitorUnregister id
  let c := r.1.monitorClassify id r.2 env
  if c.2 then ((c.1.StartTenant id env.restart).1, true) else (c.1, false)

end Manager

/-! ## Sequences of calls -/

/-- A call of the API that changes the set of tenants. -/
inductive Op where
  | create (req : CreateTenantRequest) (env : Manager.CreateEnv)
  | delete (id : Bytes) (deleteData : Bool) (env : Manager.DeleteEnv)

/-- The state after one call. -/
def applyOp (m : Manager) : Op → Manager
  | .create req env => (m.CreateTenant req env).1
  | .delete id deleteData env => (m.DeleteTenant id deleteData env).1

/-- The state after a sequence of calls, one after the other. -/
def runOps (m : Manager) (ops : List Op) : Manager := ops.foldl applyOp m

/-- The ports held by the tenants of the store. -/
def portsOf (s : Store) : List Int := s.tenants.map (fun t => t.Port)

/-- The largest of 8080 and the ports of the store, as a number. -/
def maxPortOf (s : Store) : Int := (portsOf s).foldr max 8080

/-- The ports of the store are pairwise distinct and none exceeds `B` (nor does 8080). -/
def PortsBelow (s : Store) (B : Int) : Prop := (portsOf s).Nodup ∧ maxPortOf s ≤ B

/-- The number of children spawned so far. -/
def spawnCount (m : Manager) : Nat :=
  (m.effects.filter (fun e => match e with
    | .spawn _ _ _ _ => true
    | _ => false)).length

/-- The number of registry entries for `id`. -/
def registeredCount (m : Manager) (id : Bytes) : Nat :=
  (m.processes.filter (fun e => e.1 = id)).length

/-! ## The normalisation of IDs, as the specification words it -/

/-- What becomes of one byte: letters a-z, digits and the hyphen are kept, letters A-Z
become their lowercase letter, underscore and space become a hyphen, any other byte is
dropped. -/
def normByte (c : Nat) : Option Nat :=
  if (97 ≤ c ∧ c ≤ 122) ∨ (48 ≤ c ∧ c ≤ 57) ∨ c = 45 then some c
  else if 65 ≤ c ∧ c ≤ 90 then some (Char.ofNat c).toLower.toNat
  else if c = 95 ∨ c = 32 then some 45
  else none

/-- The reference normalisation: `normByte` on every byte, in order. -/
def normalise (s : Bytes) : Bytes := s.filterMap normByte

/-- A byte of the alphabet `[a-z0-9-]`. -/
def isSlugByte (c : Nat) : Prop := (97 ≤ c ∧ c ≤ 122) ∨ (48 ≤ c ∧ c ≤ 57) ∨ c = 45

/-! ## StopTenant racing with the crash monitor -/

/-- The thread that takes the next step. -/
inductive Thread where
  | stop
  | monitor
deriving DecidableEq, Repr

/-- A call of `StopTenant(id)` and the monitor of the same tenant, each between two of
its parts.  `stopPc` counts the parts of `StopTenant` already run (lookup, signal,
unregister, persist) and `stopProc` is its local `proc`; `monPc` counts the parts of the
monitor already run after `cmd.Wait()` returned (critical section, update of the record,
restart), `monProc` is its local `proc`, `monCrash` the value of its restart condition
and `restarted` whether it has invoked `StartTenant`. -/
structure Race where
  m : Manager
  stopPc : Nat
  stopProc : Option Process
  monPc : Nat
  monProc : Option Process
  monCrash : Bool
  restarted : Bool
deriving DecidableEq, Repr

/-- The start of the race: nothing has run. -/
def Race.init (m : Manager) : Race :=
  { m := m, stopPc := 0, stopProc := none, monPc := 0, monProc := none,
    monCrash := false, restarted := false }

/-- One step of the race.  The parts of each thread run in program order; the registry
lock makes the lookup and the deletions atomic.  The monitor is blocked in `cmd.Wait()`
until `StopTenant` has signalled the child, and a thread that has finished, or is
blocked, does not move. -/
def Race.step (id : Bytes) (senv : Manager.StopEnv) (menv : Manager.MonitorEnv)
    (r : Race) : Thread → Race
  | .stop =>
    match r.stopPc with
    | 0 =>
      match r.m.stopLookup id with
      | none => { r with stopPc := 4 }
      | some proc => { r with stopPc := 1, stopProc := some proc }
    | 1 =>
      match r.stopProc with
      | some proc => { r with m := r.m.stopSignal proc senv, stopPc := 2 }
      | none => { r with stopPc := 4 }
    | 2 => { r with m := r.m.stopUnregister id, stopPc := 3 }
    | 3 => { r with m := r.m.stopPersist id senv, stopPc := 4 }
    | _ => r
  | .monitor =>
    if r.stopPc < 2 then r
    else
      match r.monPc with
      | 0 =>
        let u := r.m.monitorUnregister id
        { r with m := u.1, monProc := u.2, monPc := 1 }
      | 1 =>
        let c := r.m.monitorClassify id r.monProc menv
        { r with m := c.1, monCrash := c.2, monPc := 2 }
      | 2 =>
        if r.monCrash then
          { r with m := (r.m.StartTenant id menv.restart).1, restarted := true, monPc := 3 }
        else { r with monPc := 3 }
      | _ => r

/-- The race under a schedule. -/
def Race.run (id : Bytes) (senv : Manager.StopEnv) (menv : Manager.MonitorEnv)
    (r : Race) (schedule : List Thread) : Race :=
  schedule.foldl (Race.step id senv menv) r

/-! ## Boot, restart and status queries -/

/-- A record as `json.Unmarshal` fills it: `PID` and `DataDir` carry the tag `json:"-"`
and stay at their zero values. -/
def Tenant.fromJSON (t : Tenant) : Tenant := { t with PID := 0, DataDir := [] }

/-- `Store.load`: `file` is the tenant map decoded from the configuration file, as the
list of its entries (key, record); it is `none` when there is no file, when it cannot be
read or decoded, or when it holds no tenant map, and the tenants of the store are replaced
only in the other case.  The source assigns the decoded map as it is.  The list of records
stands for that map exactly when every entry sits under the key of its own `ID`
(`keyedByID`), which is how `save` writes the file, `AddTenant` and `UpdateTenant` being
the only writers of the map; the statements about `load` are made for such files. -/
def Store.load (s : Store) (file : Option (List (Bytes × Tenant))) : Store :=
  match file with
  | none => s
  | some stored => { s with tenants := stored.map (fun e => e.2.fromJSON) }

/-- Every entry of the decoded tenant map has the `ID` of its record for key. -/
def keyedByID : Option (List (Bytes × Tenant)) → Prop
  | none => True
  | some stored => ∀ e ∈ stored, e.1 = e.2.ID

/-- `NewStore`, once the configuration directory is made: an empty tenant map, then
`load`. -/
def NewStore (dataDir : Bytes) (file : Option (List (Bytes × Tenant))) : Store :=
  Store.load { tenants := [], dataDir := dataDir } file

namespace Manager

/-- `Manager.Start`: `StartTenant` for every tenant of the store as it is at the call,
errors being logged only; `envs` gives what the world answers for each ID. -/
def Start (m : Manager) (envs : Bytes → StartEnv) : Manager :=
  m.store.GetTenants.foldl (fun m t => (m.StartTenant t.ID (envs t.ID)).1) m

/-- `Manager.RestartTenant`: `StopTenant`, a pause, `StartTenant`. -/
def RestartTenant (m : Manager) (id : Bytes) (senv : StopEnv) (env : StartEnv) :
    Manager × Option Err :=
  match m.StopTenant id senv with
  | (m, some e) => (m, some e)
  | (m, none) => m.StartTenant id env

/-- The struct `models.TenantStatus`. -/
structure TenantStatus where
  ID : Bytes
  Status : String
  Uptime : Int
  AdminURL : Bytes
  PublicURL : Bytes
deriving DecidableEq, Repr

/-- `Manager.GetTenantStatus`.  It only reads: the result is the error or the status.
`domainName` is `GetConfig().DomainName` and `now` the clock, both in seconds with
`StartedAt`, for the uptime of a registered tenant. -/
def GetTenantStatus (m : Manager) (id : Bytes) (domainName : Bytes) (now : Nat) :
    Except Err TenantStatus :=
  match m.store.GetTenant id with
  | none => .error (.tenantNotFound id)
  | some tenant =>
    let status : TenantStatus :=
      { ID := id, Status := tenant.Status, Uptime := 0,
        AdminURL := ascii "https://" ++ tenant.Subdomain ++ ascii "." ++ domainName
          ++ ascii "/_/",
        PublicURL := ascii "https://" ++ tenant.Subdomain ++ ascii "." ++ domainName
          ++ ascii "/" }
    match m.lookupProcess id with
    | some proc => .ok { status with Uptime := (now : Int) - (proc.StartedAt : Int) }
    | none => .ok status

end Manager

/-- The state of the supervisor when `main` has run `NewStore`, `NewManager` and
`Manager.Start`. -/
def boot (dataDir : Bytes) (file : Option (List (Bytes × Tenant)))
    (envs : Bytes → Manager.StartEnv) : Manager :=
  (Manager.NewManager (NewStore dataDir file)).Start envs

/-- A completed call of the supervisor, or a completed run of the monitor after the exit
of a child. -/
inductive Action where
  | create (req : CreateTenantRequest) (env : Manager.CreateEnv)
  | start (id : Bytes) (env : Manager.StartEnv)
  | stop (id : Bytes) (env : Manager.StopEnv)
  | restart (id : Bytes) (senv : Manager.StopEnv) (env : Manager.StartEnv)
  | delete (id : Bytes) (deleteData : Bool) (env : Manager.DeleteEnv)
  | monitorExit (id : Bytes) (env : Manager.MonitorEnv)

/-- The state after one action. -/
def applyAction (m : Manager) : Action → Manager
  | .create req env => (m.CreateTenant req env).1
  | .start id env => (m.StartTenant id env).1
  | .stop id env => (m.StopTenant id env).1
  | .restart id senv env => (m.RestartTenant id senv env).1
  | .delete id deleteData env => (m.DeleteTenant id deleteData env).1
  | .monitorExit id env => (m.monitorProcess id env).1

/-- The state after a sequence of actions, one after the other. -/
def runActions (m : Manager) (acts : List Action) : Manager := acts.foldl applyAction m

/-- Status and registry agree on `id`: a registered tenant has a record with status
`running`, and, when `strict` is set, a record with status `running` is registered. -/
def agreesAt (strict : Bool) (m : Manager) (id : Bytes) : Prop :=
  match m.store.GetTenant id, m.lookupProcess id with
  | some t, some _ => t.Status = "running"
  | some t, none => strict = true → t.Status ≠ "running"
  | none, some _ => False
  | none, none => True

/-- Status and registry agree on every ID, in the strict sense on the IDs that `strict`
selects. -/
def StatusAgrees (strict : Bytes → Bool) (m : Manager) : Prop :=
  ∀ id, agreesAt (strict id) m id

/-- The error of a result, `none` when there is none. -/
def errorOf {α : Type} : Except Err α → Option Err
  | .error e => some e
  | .ok _ => none

/-! ## The registry lock -/

/-- What a call does that matters for the lock `m.mu` of the supervisor: the four
operations of the `sync.RWMutex`, the waits, and the accesses to the registry. -/
inductive LockEv where
  | lock
  | unlock
  | rlock
  | runlock
  | sleep (ms : Nat)
  | probe
  | dial
  | waitExit
  | registry
deriving DecidableEq, Repr

/-- The events of the readiness loop of `StartTenant` from round `i`, with `left` rounds
to go (compare `pollLoop`): each round sleeps 200 ms and probes the child; a dead child is
followed by a last sleep; a live one by the dial, which ends the loop when it succeeds and
is followed by a last sleep in the last round. -/
def Manager.pollTrace (probes : Nat → Bool × Bool) (maxRetries : Nat) : Nat → Nat → List LockEv
  | _, 0 => []
  | i, left + 1 =>
    [.sleep 200, .probe] ++
      (if !(probes i).1 then [.sleep 200]
       else [.dial] ++
        (if (probes i).2 then []
         else if i = maxRetries - 1 then [.sleep 200]
         else pollTrace probes maxRetries (i + 1) left))

/-- The events of one call of `StartTenant`, in order.  Nothing happens to the lock when
the record is missing.  Otherwise `m.mu.Lock()` (source line 131) comes first and the
deferred `m.mu.Unlock()` (line 132) last, at whatever `return` the call leaves; in
between come the lookup in the registry, the settle delay and its probe (lines 194-198),
the sleep of an early exit (line 201) or the readiness loop (lines 230-269), and the
insertion in the registry (line 271). -/
def startTrace (m : Manager) (id : Bytes) (env : Manager.StartEnv) : List LockEv :=
  match m.store.GetTenant id with
  | none => []
  | some _ =>
    [.lock, .registry] ++
      (if m.alreadyRunning id then []
       else if !env.mkdirOK then []
       else if !env.binaryExists then []
       else if !env.startOK then []
       else match env.pid with
        | none => []
        | some _ =>
          [.sleep 500, .probe] ++
            (if !env.settleAlive then [.sleep 200]
             else Manager.pollTrace env.probes 30 0 30 ++
              (match Manager.pollLoop env.probes 30 0 30 with
               | .died _ => []
               | .timedOut => []
               | _ => [.registry]))) ++
      [.unlock]

/-- The events of one call of `StopTenant`: a first critical section for the lookup
(lines 294-296) and, for a registered ID, the wait for the exit of a started child and a
second critical section for the deletion (lines 319-321). -/
def stopTrace (m : Manager) (id : Bytes) : List LockEv :=
  [.lock, .registry, .unlock] ++
    (match m.lookupProcess id with
     | none => []
     | some proc =>
       (if proc.CmdProcess.isSome then [.waitExit] else []) ++ [.lock, .registry, .unlock])

/-- The events of one call of `GetTenantStatus`: for a known ID, a read lock around the
lookup in the registry (lines 387-391). -/
def statusTrace (m : Manager) (id : Bytes) : List LockEv :=
  match m.store.GetTenant id with
  | none => []
  | some _ => [.rlock, .registry, .runlock]

/-- The state of a `sync.RWMutex`: whether a writer holds it, and the number of readers. -/
structure RWMutex where
  writer : Bool
  readers : Nat
deriving DecidableEq, Repr

/-- The mutex nobody holds. -/
def RWMutex.free : RWMutex := { writer := false, readers := 0 }

/-- Whether an event can happen in this state of the mutex: `Lock` needs no writer and
no reader, `RLock` needs no writer, anything else does not depend on the mutex. -/
def RWMutex.enabled (mu : RWMutex) : LockEv → Bool
  | .lock => !mu.writer && mu.readers == 0
  | .rlock => !mu.writer
  | _ => true

/-- The state of the mutex after an event. -/
def RWMutex.after (mu : RWMutex) : LockEv → RWMutex
  | .lock => { mu with writer := true }
  | .unlock => { mu with writer := false }
  | .rlock => { mu with readers := mu.readers + 1 }
  | .runlock => { mu with readers := mu.readers - 1 }
  | _ => mu

/-- The state of the mutex after a sequence of events. -/
def RWMutex.afterAll (mu : RWMutex) (evs : List LockEv) : RWMutex := evs.foldl RWMutex.after mu

/-- An event that is one of the four operations of the mutex. -/
def LockEv.isMutexOp : LockEv → Bool
  | .lock => true
  | .unlock => true
  | .rlock => true
  | .runlock => true
  | _ => false

/-! ## The tail of a log -/

/-- The last `n` elements of a list (all of them when there are fewer). -/
def lastLines (n : Nat) (L : List Bytes) : List Bytes := L.drop (L.length - n)

/-! ## Sample data -/

/-- A stopped tenant named by an ASCII slug, holding `port`. -/
def sampleTenant (slug : String) (port : Int) : Tenant :=
  { ID := ascii slug, Name := ascii slug, Subdomain := ascii slug, Port := port,
    Status := "stopped", CreatedAt := 0, UpdatedAt := 0, PID := 0,
    DataDir := joinPath (ascii "/mnt/data") (ascii slug) }

/-- A store under the default data root `/mnt/data`. -/
def sampleStore (tenants : List Tenant) : Store :=
  { tenants := tenants, dataDir := ascii "/mnt/data" }

/-- A world in which a start succeeds at the first readiness probe, with child `pid`. -/
def healthyStart (pid : Nat) : Manager.StartEnv :=
  { mkdirOK := true, binaryExists := true, logDirOK := true, logOpenOK := true,
    stamp := ascii "2025-01-01T00:00:00Z", startOK := true, pid := some pid,
    childLog := [], settleAlive := true, probes := fun _ => (true, true),
    startedAt := 1, updatedAt := 1, saveOK := true }

/-- A world in which the binary is missing, so that every start fails. -/
def brokenStart : Manager.StartEnv :=
  { healthyStart 0 with binaryExists := false }

/-- A world in which a create succeeds, with child `pid`. -/
def healthyCreate (pid : Nat) : Manager.CreateEnv :=
  { mkdirOK := true, createdAt := 1, updatedAt := 1, saveOK := true,
    start := healthyStart pid, setupURL := [] }

/-- A world in which a create stores the record and the start then fails. -/
def brokenCreate : Manager.CreateEnv :=
  { healthyCreate 0 with start := brokenStart }

/-- A world in which a stop ends within the grace period. -/
def quickStop : Manager.StopEnv := { exitedInGrace := true, now := 2, saveOK := true }

/-- A world in which a delete succeeds. -/
def quickDelete : Manager.DeleteEnv := { stop := quickStop, saveOK := true }

/-- A world in which the monitor's `cmd.Wait()` returned an error (the child was
terminated by a signal, or exited with a non-zero status) and a restart succeeds with
child 4343. -/
def failedExit : Manager.MonitorEnv :=
  { waitErr := true, now := 3, saveOK := true, restart := healthyStart 4343 }

/-- A world in which the monitor's `cmd.Wait()` returned nil (exit status 0). -/
def cleanExit : Manager.MonitorEnv := { failedExit with waitErr := false }

/-- A create request for an ASCII subdomain. -/
def sampleRequest (subdomain : String) : CreateTenantRequest :=
  { Name := ascii subdomain, Subdomain := ascii subdomain }

/-- A supervisor in which tenant `acme` (port 8081) runs as child 4242 under scope 0. -/
def runningAcme : Manager :=
  { store := sampleStore [{ sampleTenant "acme" 8081 with Status := "running", PID := 4242 }],
    processes := [(ascii "acme",
      { Tenant := ascii "acme", CmdProcess := some 4242, StartedAt := 1, ctx := 0 })],
    caddyReload := { cap := 10, len := 0 }, canceled := [], nextCtx := 1, logs := [],
    effects := [] }

/-- A world in which a start succeeds but the write of the record to disk fails. -/
def unsavedStart (pid : Nat) : Manager.StartEnv := { healthyStart pid with saveOK := false }

/-- A world in which a stop ends in time but the write of the record to disk fails. -/
def unsavedStop : Manager.StopEnv := { quickStop with saveOK := false }

/-- A world in which the write of the new record to disk fails. -/
def unsavedCreate : Manager.CreateEnv := { healthyCreate 7 with saveOK := false }

/-- A world in which the write of the store after a removal fails. -/
def unsavedDelete : Manager.DeleteEnv := { quickDelete with saveOK := false }

/-- A world in which the child lives and its port answers at the third readiness probe. -/
def slowStart (pid : Nat) : Manager.StartEnv :=
  { healthyStart pid with probes := fun i => (true, decide (2 ≤ i)) }

/-- A log file whose first line has 65536 bytes, followed by the line `x`. -/
def longLineLog : Bytes := List.replicate 65536 97 ++ [10, 120, 10]

/-- A world in which the child outlives the grace period and is killed. -/
def forcedStop : Manager.StopEnv := { quickStop with exitedInGrace := false }

/-- The tenant map of a configuration file written while `acme` was running: the record
has status `running` and sits under the key of its ID. -/
def persistedAcme : Option (List (Bytes × Tenant)) :=
  some [(ascii "acme", { sampleTenant "acme" 8081 with Status := "running" })]

/-! # Theorems -/

open Manager

/-! ## Arithmetic of the port allocator -/

theorem wrapInt64_of_bounds (x : Int) (h1 : -9223372036854775808 ≤ x)
    (h2 : x ≤ 9223372036854775807) : wrapInt64 x = x := by
  unfold wrapInt64; omega

theorem foldr_max_max (l : List Int) (a p : Int) :
    l.foldr max (max a p) = max p (l.foldr max a) := by
  induction l with
  | nil => simp [max_comm]
  | cons x xs ih => simp only [List.foldr_cons, ih]; exact max_left_comm x p _

theorem foldl_port_eq (ts : List Tenant) (a : Int) :
    ts.foldl (fun maxPort t => if t.Port > maxPort then t.Port else maxPort) a
      = (ts.map (fun t => t.Port)).foldr max a := by
  induction ts generalizing a with
  | nil => rfl
  | cons t ts ih =>
    simp only [List.foldl_cons, List.map_cons, List.foldr_cons, ih]
    have : (if t.Port > a then t.Port else a) = max a t.Port := by
      split <;> omega
    rw [this, foldr_max_max]

theorem foldr_max_le_iff (l : List Int) (a B : Int) :
    l.foldr max a ≤ B ↔ a ≤ B ∧ ∀ p ∈ l, p ≤ B := by
  induction l with
  | nil => simp
  | cons x xs ih =>
    simp only [List.foldr_cons, max_le_iff, ih, List.mem_cons, forall_eq_or_imp]
    tauto

theorem maxPortOf_le_iff (s : Store) (B : Int) :
    maxPortOf s ≤ B ↔ 8080 ≤ B ∧ ∀ t ∈ s.tenants, t.Port ≤ B := by
  unfold maxPortOf portsOf
  rw [foldr_max_le_iff]
  simp

theorem le_maxPortOf (s : Store) : 8080 ≤ maxPortOf s :=
  ((maxPortOf_le_iff s _).1 (le_refl _)).1

theorem port_le_maxPortOf (s : Store) (t : Tenant) (h : t ∈ s.tenants) :
    t.Port ≤ maxPortOf s :=
  ((maxPortOf_le_iff s _).1 (le_refl _)).2 t h

theorem GetNextPort_wrap (s : Store) : s.GetNextPort = wrapInt64 (maxPortOf s + 1) := by
  unfold Store.GetNextPort maxPortOf portsOf
  simp only [foldl_port_eq]

theorem GetNextPort_exact (s : Store) (h : maxPortOf s < maxInt64) :
    s.GetNextPort = maxPortOf s + 1 := by
  rw [GetNextPort_wrap]
  have := le_maxPortOf s
  unfold maxInt64 at h
  apply wrapInt64_of_bounds <;> omega


/-! ## What the operations do to the store and the registry -/

@[simp] theorem Manager.emit_store (m : Manager) (e : Effect) : (m.emit e).store = m.store := rfl
@[simp] theorem Manager.emit_processes (m : Manager) (e : Effect) :
    (m.emit e).processes = m.processes := rfl
@[simp] theorem Manager.cancel_store (m : Manager) (c : Nat) : (m.cancel c).store = m.store := rfl
@[simp] theorem Manager.cancel_processes (m : Manager) (c : Nat) :
    (m.cancel c).processes = m.processes := rfl
@[simp] theorem Manager.setLog_store (m : Manager) (id c : Bytes) :
    (m.setLog id c).store = m.store := rfl
@[simp] theorem Manager.setLog_processes (m : Manager) (id c : Bytes) :
    (m.setLog id c).processes = m.processes := rfl
@[simp] theorem Manager.appendLog_store (m : Manager) (id c : Bytes) :
    (m.appendLog id c).store = m.store := by
  unfold Manager.appendLog; split <;> rfl
@[simp] theorem Manager.appendLog_processes (m : Manager) (id c : Bytes) :
    (m.appendLog id c).processes = m.processes := by
  unfold Manager.appendLog; split <;> rfl
@[simp] theorem Manager.register_store (m : Manager) (id : Bytes) (p : Process) :
    (m.register id p).store = m.store := rfl
@[simp] theorem Manager.unregister_store (m : Manager) (id : Bytes) :
    (m.unregister id).store = m.store := rfl
@[simp] theorem Manager.triggerCaddyReload_store (m : Manager) :
    m.triggerCaddyReload.store = m.store := by
  unfold Manager.triggerCaddyReload; split <;> rfl
@[simp] theorem Manager.triggerCaddyReload_processes (m : Manager) :
    m.triggerCaddyReload.processes = m.processes := by
  unfold Manager.triggerCaddyReload; split <;> rfl
@[simp] theorem Manager.openLog_store (m : Manager) (id d : Bytes) (p : Int)
    (env : Manager.StartEnv) : (m.openLog id d p env).store = m.store := by
  unfold Manager.openLog; split <;> split <;> rfl
@[simp] theorem Manager.openLog_processes (m : Manager) (id d : Bytes) (p : Int)
    (env : Manager.StartEnv) : (m.openLog id d p env).processes = m.processes := by
  unfold Manager.openLog; split <;> split <;> rfl
@[simp] theorem Manager.childOutput_store (m : Manager) (id : Bytes)
    (env : Manager.StartEnv) : (m.childOutput id env).store = m.store := by
  unfold Manager.childOutput; split <;> simp
@[simp] theorem Manager.childOutput_processes (m : Manager) (id : Bytes)
    (env : Manager.StartEnv) : (m.childOutput id env).processes = m.processes := by
  unfold Manager.childOutput; split <;> simp

@[simp] theorem Manager.emit_caddyReload (m : Manager) (e : Effect) :
    (m.emit e).caddyReload = m.caddyReload := rfl
@[simp] theorem Manager.cancel_caddyReload (m : Manager) (c : Nat) :
    (m.cancel c).caddyReload = m.caddyReload := rfl
@[simp] theorem Manager.setLog_caddyReload (m : Manager) (id c : Bytes) :
    (m.setLog id c).caddyReload = m.caddyReload := rfl
@[simp] theorem Manager.appendLog_caddyReload (m : Manager) (id c : Bytes) :
    (m.appendLog id c).caddyReload = m.caddyReload := by
  unfold Manager.appendLog; split <;> rfl
@[simp] theorem Manager.register_caddyReload (m : Manager) (id : Bytes) (p : Process) :
    (m.register id p).caddyReload = m.caddyReload := rfl
@[simp] theorem Manager.unregister_caddyReload (m : Manager) (id : Bytes) :
    (m.unregister id).caddyReload = m.caddyReload := rfl
@[simp] theorem Manager.openLog_caddyReload (m : Manager) (id d : Bytes) (p : Int)
    (env : Manager.StartEnv) : (m.openLog id d p env).caddyReload = m.caddyReload := by
  unfold Manager.openLog; split <;> split <;> rfl
@[simp] theorem Manager.childOutput_caddyReload (m : Manager) (id : Bytes)
    (env : Manager.StartEnv) : (m.childOutput id env).caddyReload = m.caddyReload := by
  unfold Manager.childOutput; split <;> simp

theorem GetTenant_some (s : Store) (id : Bytes) (t : Tenant) (h : s.GetTenant id = some t) :
    t ∈ s.tenants ∧ t.ID = id := by
  unfold Store.GetTenant at h
  exact ⟨List.mem_of_find?_eq_some h, by simpa using List.find?_some h⟩

/-- The outcomes of the liveness confirmation: a failure that only cancels the scope, or
the registration. -/
theorem confirmLiveness_cases (m : Manager) (id : Bytes) (tenant : Tenant) (pid ctx : Nat)
    (env : Manager.StartEnv) :
    (∃ e, m.confirmLiveness id tenant pid ctx env = (m.cancel ctx, some e)) ∨
    m.confirmLiveness id tenant pid ctx env = (m.registerStarted id tenant pid ctx env, none) := by
  unfold Manager.confirmLiveness
  split
  · split
    · exact Or.inl ⟨_, rfl⟩
    · exact Or.inl ⟨_, rfl⟩
  · split
    · exact Or.inl ⟨_, rfl⟩
    · exact Or.inl ⟨_, rfl⟩
    · exact Or.inr rfl

/-- The outcomes of `StartTenant`. -/
theorem StartTenant_cases (m : Manager) (id : Bytes) (env : Manager.StartEnv) :
    (∃ e m1, m.StartTenant id env = (m1, some e) ∧ m1.store = m.store ∧
      m1.processes = m.processes ∧ m1.caddyReload = m.caddyReload) ∨
    (m.StartTenant id env = (m, none) ∧ m.alreadyRunning id = true ∧
      (m.store.GetTenant id).isSome) ∨
    (∃ tenant pid, m.store.GetTenant id = some tenant ∧ env.pid = some pid ∧
      m.alreadyRunning id = false ∧
      m.StartTenant id env =
        ((m.spawned id tenant env).registerStarted id tenant pid m.nextCtx env, none)) := by
  unfold Manager.StartTenant
  split
  · exact Or.inl ⟨_, _, rfl, rfl, rfl, rfl⟩
  · rename_i tenant ht
    split
    · rename_i hr
      exact Or.inr (Or.inl ⟨rfl, hr, by simp [ht]⟩)
    · rename_i hr
      split
      · exact Or.inl ⟨_, _, rfl, rfl, rfl, rfl⟩
      · split
        · exact Or.inl ⟨_, _, rfl, rfl, rfl, rfl⟩
        · unfold Manager.spawnChild
          split
          · exact Or.inl ⟨_, _, rfl, by simp, by simp, by simp⟩
          · split
            · exact Or.inl ⟨_, _, rfl, by simp, by simp, by simp⟩
            · rename_i pid hpid
              rcases confirmLiveness_cases
                (((({ m.emit (.mkdirAll (joinPath m.store.GetDataDir id)) with
                    nextCtx := m.nextCtx + 1 } : Manager).openLog id
                    (joinPath m.store.GetDataDir id) tenant.Port env).emit
                  (.spawn id (joinPath m.store.GetDataDir id) tenant.Port m.nextCtx)).childOutput
                  id env) id tenant pid m.nextCtx env with ⟨e, he⟩ | hok
              · left
                refine ⟨e, _, he, by simp, by simp, by simp⟩
              · right; right
                exact ⟨tenant, pid, ht, hpid, by simpa using hr, hok⟩

theorem PortsBelow.mono {s : Store} {B C : Int} (h : PortsBelow s B) (hBC : B ≤ C) :
    PortsBelow s C := ⟨h.1, le_trans h.2 hBC⟩

/-- Deleting records keeps the ports distinct and bounded. -/
theorem PortsBelow.filter {s : Store} {B : Int} (h : PortsBelow s B) (p : Tenant → Bool) :
    PortsBelow { s with tenants := s.tenants.filter p } B := by
  constructor
  · exact (List.filter_sublist s.tenants).map _ |>.nodup h.1
  · have hb := (maxPortOf_le_iff s B).1 h.2
    rw [maxPortOf_le_iff]
    exact ⟨hb.1, fun t ht => hb.2 t (List.mem_of_mem_filter ht)⟩

/-- Writing back a record of the store with its port unchanged keeps the ports distinct
and bounded. -/
theorem PortsBelow.put_same {s : Store} {B : Int} (h : PortsBelow s B) (t t1 : Tenant)
    (ht : t ∈ s.tenants) (hid : t1.ID = t.ID) (hp : t1.Port = t.Port) :
    PortsBelow (s.put t1) B := by
  have hinj := List.inj_on_of_nodup_map h.1
  constructor
  · show ((t1 :: s.tenants.filter (fun u => u.ID ≠ t1.ID)).map (fun u => u.Port)).Nodup
    rw [List.map_cons, List.nodup_cons]
    constructor
    · intro hmem
      rcases List.mem_map.1 hmem with ⟨u, hu, hup⟩
      have hu1 := List.mem_of_mem_filter hu
      have hu2 := List.of_mem_filter hu
      have : u = t := hinj hu1 ht (by rw [hup, hp])
      subst this
      simp [hid] at hu2
    · exact (List.filter_sublist s.tenants).map _ |>.nodup h.1
  · have hb := (maxPortOf_le_iff s B).1 h.2
    rw [maxPortOf_le_iff]
    refine ⟨hb.1, ?_⟩
    intro u hu
    rcases List.mem_cons.1 hu with rfl | hu
    · rw [hp]; exact hb.2 t ht
    · exact hb.2 u (List.mem_of_mem_filter hu)

/-- Adding a record whose port is above every port of the store keeps the ports
distinct. -/
theorem PortsBelow.put_above {s : Store} {B : Int} (h : PortsBelow s B) (t1 : Tenant)
    (hp : t1.Port = maxPortOf s + 1) : PortsBelow (s.put t1) (B + 1) := by
  constructor
  · show ((t1 :: s.tenants.filter (fun u => u.ID ≠ t1.ID)).map (fun u => u.Port)).Nodup
    rw [List.map_cons, List.nodup_cons]
    constructor
    · intro hmem
      rcases List.mem_map.1 hmem with ⟨u, hu, hup⟩
      have := port_le_maxPortOf s u (List.mem_of_mem_filter hu)
      omega
    · exact (List.filter_sublist s.tenants).map _ |>.nodup h.1
  · have hb := (maxPortOf_le_iff s B).1 h.2
    have h2 := h.2
    rw [maxPortOf_le_iff]
    refine ⟨by omega, ?_⟩
    intro u hu
    rcases List.mem_cons.1 hu with rfl | hu
    · rw [hp]; omega
    · have := hb.2 u (List.mem_of_mem_filter hu); omega

theorem StartTenant_store (m : Manager) (id : Bytes) (env : Manager.StartEnv) :
    (m.StartTenant id env).1.store = m.store ∨
    ∃ t pid, m.store.GetTenant id = some t ∧
      (m.StartTenant id env).1.store =
        m.store.put { t with Status := "running", PID := pid, UpdatedAt := env.updatedAt } := by
  rcases StartTenant_cases m id env with ⟨e, m1, h, hs, _, _⟩ | ⟨h, _, _⟩ | ⟨t, pid, ht, _, _, h⟩
  · left; rw [h]; exact hs
  · left; rw [h]
  · right
    refine ⟨t, pid, ht, ?_⟩
    rw [h]
    simp [Manager.registerStarted, Manager.spawned, Store.UpdateTenant]

theorem StartTenant_ports (m : Manager) (id : Bytes) (env : Manager.StartEnv) (B : Int)
    (h : PortsBelow m.store B) : PortsBelow (m.StartTenant id env).1.store B := by
  rcases StartTenant_store m id env with hs | ⟨t, pid, ht, hs⟩
  · rw [hs]; exact h
  · rw [hs]
    exact h.put_same t _ (GetTenant_some _ _ _ ht).1 rfl rfl

theorem StopTenant_store (m : Manager) (id : Bytes) (env : Manager.StopEnv) :
    (m.StopTenant id env).1.store = m.store ∨
    ∃ t, m.store.GetTenant id = some t ∧
      (m.StopTenant id env).1.store =
        m.store.put { t with Status := "stopped", PID := 0, UpdatedAt := env.now } := by
  unfold Manager.StopTenant
  split
  · left; rfl
  · rename_i proc hp
    have hst : ((m.stopSignal proc env).stopUnregister id).store = m.store := by
      unfold Manager.stopSignal Manager.stopUnregister
      split
      · split <;> simp
      · simp
    dsimp only
    unfold Manager.stopPersist
    rw [hst]
    split
    · rename_i t ht
      right; exact ⟨t, ht, by simp [Store.UpdateTenant, hst]⟩
    · left; exact hst

theorem StopTenant_ports (m : Manager) (id : Bytes) (env : Manager.StopEnv) (B : Int)
    (h : PortsBelow m.store B) : PortsBelow (m.StopTenant id env).1.store B := by
  rcases StopTenant_store m id env with hs | ⟨t, ht, hs⟩
  · rw [hs]; exact h
  · rw [hs]
    exact h.put_same t _ (GetTenant_some _ _ _ ht).1 rfl rfl

theorem StopTenant_ok (m : Manager) (id : Bytes) (env : Manager.StopEnv) :
    (m.StopTenant id env).2 = none := by
  unfold Manager.StopTenant; split <;> rfl

theorem DeleteTenant_ports (m : Manager) (id : Bytes) (d : Bool) (env : Manager.DeleteEnv)
    (B : Int) (h : PortsBelow m.store B) : PortsBelow (m.DeleteTenant id d env).1.store B := by
  have h1 := StopTenant_ports m id env.stop B h
  have h2 := StopTenant_ok m id env.stop
  unfold Manager.DeleteTenant
  split
  · rename_i m1 e heq
    rw [heq] at h2; simp at h2
  · rename_i m1 heq
    rw [heq] at h1
    simp only [Store.RemoveTenant]
    split
    · exact h1.filter _
    · split
      · simp; exact h1.filter _
      · simp; exact h1.filter _

theorem find?_filter_of_imp {α : Type} (p q : α → Bool) (l : List α)
    (h : ∀ x, p x = true → q x = true) : (l.filter q).find? p = l.find? p := by
  induction l with
  | nil => rfl
  | cons x xs ih =>
    by_cases hq : q x = true
    · rw [List.filter_cons_of_pos hq]
      simp only [List.find?_cons, ih]
    · have hp : p x = false := by
        cases hpx : p x with
        | false => rfl
        | true => exact absurd (h x hpx) hq
      rw [List.filter_cons_of_neg hq, List.find?_cons, hp, ih]

theorem GetTenant_put_self (s : Store) (t : Tenant) : (s.put t).GetTenant t.ID = some t := by
  simp [Store.GetTenant, Store.put]

theorem GetTenant_put_other (s : Store) (t : Tenant) (id : Bytes) (h : id ≠ t.ID) :
    (s.put t).GetTenant id = s.GetTenant id := by
  unfold Store.GetTenant Store.put
  have hne : ¬ t.ID = id := fun e => h e.symm
  simp only [List.find?_cons, hne, decide_False]
  apply find?_filter_of_imp
  intro x hx
  simp only [decide_eq_true_eq] at hx
  simp [hx, h]

theorem GetTenant_filter_other (s : Store) (id1 id : Bytes) (h : id ≠ id1) :
    ({ s with tenants := s.tenants.filter (fun t => t.ID ≠ id1) } : Store).GetTenant id
      = s.GetTenant id := by
  unfold Store.GetTenant
  apply find?_filter_of_imp
  intro x hx
  simp only [decide_eq_true_eq] at hx
  simp [hx, h]

theorem GetTenant_filter_self (s : Store) (id : Bytes) :
    ({ s with tenants := s.tenants.filter (fun t => t.ID ≠ id) } : Store).GetTenant id
      = none := by
  unfold Store.GetTenant
  rw [List.find?_eq_none]
  intro x hx
  have := List.of_mem_filter hx
  simpa using this

/-- The record `CreateTenant` builds. -/
theorem CreateTenant_cases (m : Manager) (req : CreateTenantRequest) (env : Manager.CreateEnv) :
    (((m.store.GetTenant (sanitizeID req.Subdomain)).isSome = true ∨ env.mkdirOK = false) ∧
      ∃ e, m.CreateTenant req env = (m, .error e)) ∨
    ∃ tenant : Tenant, tenant.ID = sanitizeID req.Subdomain ∧
      tenant.Port = m.store.GetNextPort ∧ tenant.Status = "stopped" ∧
      m.store.GetTenant (sanitizeID req.Subdomain) = none ∧ env.mkdirOK = true ∧
      ((env.saveOK = false ∧ ∃ m1 e, m.CreateTenant req env = (m1, .error e) ∧
          m1.store = m.store.put tenant ∧ m1.processes = m.processes ∧
          m1.caddyReload = m.caddyReload) ∨
       (env.saveOK = true ∧ ∃ m1 : Manager, m1.store = m.store.put tenant ∧
          m1.processes = m.processes ∧ m1.caddyReload = m.caddyReload ∧
          m1.effects = .mkdirAll (joinPath m.store.GetDataDir tenant.ID) :: m.effects ∧
          ((∃ e, (m1.StartTenant tenant.ID env.start).2 = some e ∧
              m.CreateTenant req env =
                ((m1.StartTenant tenant.ID env.start).1, .error (.startTenantFailed e))) ∨
           ((m1.StartTenant tenant.ID env.start).2 = none ∧
              m.CreateTenant req env =
                ((m1.StartTenant tenant.ID env.start).1.triggerCaddyReload,
                 .ok { Tenant := ((m1.StartTenant tenant.ID env.start).1.triggerCaddyReload.store.GetTenant
                         tenant.ID).getD tenant,
                       SetupURL := env.setupURL }))))) := by
  unfold Manager.CreateTenant
  dsimp only
  split
  · rename_i hsome
    exact Or.inl ⟨Or.inl hsome, _, rfl⟩
  · rename_i hnone
    split
    · rename_i hmk
      exact Or.inl ⟨Or.inr (by simpa using hmk), _, rfl⟩
    · rename_i hmk
      right
      refine ⟨Tenant.mk (sanitizeID req.Subdomain) req.Name req.Subdomain m.store.GetNextPort
          "stopped" env.createdAt env.updatedAt 0
          (joinPath m.store.GetDataDir (sanitizeID req.Subdomain)),
        rfl, rfl, rfl, by simpa using hnone, by simpa using hmk, ?_⟩
      simp only [Store.AddTenant]
      split
      · rename_i hs
        left
        exact ⟨by simpa using hs, _, _, rfl, rfl, rfl, rfl⟩
      · rename_i hs
        right
        refine ⟨by simpa using hs,
          ({ m.emit (.mkdirAll (joinPath m.store.GetDataDir (sanitizeID req.Subdomain))) with
            store := m.store.put (Tenant.mk (sanitizeID req.Subdomain) req.Name req.Subdomain
              m.store.GetNextPort "stopped" env.createdAt env.updatedAt 0
              (joinPath m.store.GetDataDir (sanitizeID req.Subdomain))) } : Manager),
          rfl, rfl, rfl, rfl, ?_⟩
        split
        · rename_i m2 e heq
          left
          refine ⟨e, congrArg Prod.snd heq, ?_⟩
          exact Prod.ext (congrArg Prod.fst heq).symm rfl
        · rename_i m2 heq
          right
          refine ⟨congrArg Prod.snd heq, ?_⟩
          have h1 : m2 = _ := (congrArg Prod.fst heq).symm
          subst h1
          rfl

/-- The store after `CreateTenant`: untouched, or the new record added and then whatever
`StartTenant` does to the store. -/
theorem CreateTenant_store (m : Manager) (req : CreateTenantRequest) (env : Manager.CreateEnv) :
    (((m.store.GetTenant (sanitizeID req.Subdomain)).isSome = true ∨ env.mkdirOK = false) ∧
      (m.CreateTenant req env).1.store = m.store) ∨
    ∃ tenant : Tenant, tenant.ID = sanitizeID req.Subdomain ∧
      tenant.Port = m.store.GetNextPort ∧
      m.store.GetTenant (sanitizeID req.Subdomain) = none ∧ env.mkdirOK = true ∧
      ((m.CreateTenant req env).1.store = m.store.put tenant ∨
        ∃ pid, (m.CreateTenant req env).1.store = m.store.put
          { tenant with Status := "running", PID := pid, UpdatedAt := env.start.updatedAt }) := by
  rcases CreateTenant_cases m req env with ⟨hc, e, h⟩ | ⟨tenant, hid, hport, _, hnone, hmk, hrest⟩
  · left; exact ⟨hc, by rw [h]⟩
  · right
    refine ⟨tenant, hid, hport, hnone, hmk, ?_⟩
    rcases hrest with ⟨_, m1, e, h, hs, _⟩ | ⟨_, m1, hs, _, _, _, hrest⟩
    · left; rw [h]; exact hs
    · have hst := StartTenant_store m1 tenant.ID env.start
      have hfin : (m.CreateTenant req env).1.store = (m1.StartTenant tenant.ID env.start).1.store := by
        rcases hrest with ⟨e, _, h⟩ | ⟨_, h⟩
        · rw [h]
        · rw [h]; simp
      rw [hfin]
      rcases hst with h1 | ⟨t, pid, ht, h1⟩
      · left; rw [h1, hs]
      · right
        rw [hs, GetTenant_put_self] at ht
        cases ht
        refine ⟨pid, ?_⟩
        rw [h1, hs]
        simp [Store.put]

theorem CreateTenant_ports (m : Manager) (req : CreateTenantRequest) (env : Manager.CreateEnv)
    (B : Int) (h : PortsBelow m.store B) (hB : B < maxInt64) :
    PortsBelow (m.CreateTenant req env).1.store (B + 1) := by
  have hnext : m.store.GetNextPort = maxPortOf m.store + 1 :=
    GetNextPort_exact _ (lt_of_le_of_lt h.2 hB)
  rcases CreateTenant_store m req env with ⟨_, hs⟩ | ⟨tenant, _, hport, _, _, hs | ⟨pid, hs⟩⟩
  · rw [hs]; exact h.mono (by omega)
  · rw [hs]; exact h.put_above tenant (by rw [hport, hnext])
  · rw [hs]; exact h.put_above _ (by simp [hport, hnext])

theorem applyOp_ports (m : Manager) (op : Op) (B : Int) (h : PortsBelow m.store B)
    (hB : B < maxInt64) : PortsBelow (applyOp m op).store (B + 1) := by
  cases op with
  | create req env => exact CreateTenant_ports m req env B h hB
  | delete id d env => exact (DeleteTenant_ports m id d env B h).mono (by omega)

theorem runOps_ports (ops : List Op) (m : Manager) (B : Int) (h : PortsBelow m.store B)
    (hB : B + ops.length ≤ maxInt64) : PortsBelow (runOps m ops).store (B + ops.length) := by
  induction ops generalizing m B with
  | nil => simpa [runOps] using h
  | cons op ops ih =>
    have h1 := applyOp_ports m op B h (by simp at hB; omega)
    have h2 := ih (applyOp m op) (B + 1) h1 (by simp at hB ⊢; omega)
    simp only [runOps, List.foldl_cons, List.length_cons] at h2 ⊢
    have e : B + 1 + (ops.length : Int) = B + ((ops.length + 1 : Nat) : Int) := by
      push_cast; ring
    rw [← e]; exact h2

theorem runOps_append (m : Manager) (xs ys : List Op) :
    runOps m (xs ++ ys) = runOps (runOps m xs) ys := by
  simp [runOps, List.foldl_append]

theorem foldr_max_attained (l : List Int) (a : Int) :
    l.foldr max a = a ∨ l.foldr max a ∈ l := by
  induction l with
  | nil => left; rfl
  | cons x xs ih =>
    simp only [List.foldr_cons, List.mem_cons]
    rcases max_cases x (xs.foldr max a) with ⟨h, _⟩ | ⟨h, _⟩
    · right; left; exact h
    · rw [h]
      rcases ih with h1 | h1
      · left; exact h1
      · right; right; exact h1

theorem maxPortOf_attained (s : Store) :
    maxPortOf s = 8080 ∨ ∃ t ∈ s.tenants, t.Port = maxPortOf s := by
  unfold maxPortOf portsOf
  rcases foldr_max_attained (s.tenants.map (fun t => t.Port)) 8080 with h | h
  · left; exact h
  · right
    rcases List.mem_map.1 h with ⟨t, ht, hp⟩
    exact ⟨t, ht, hp⟩

/-- The record `CreateTenant` leaves in the store under the new ID, when the ID is free
and the data directory can be made: the port is the one `GetNextPort` gave. -/
theorem CreateTenant_record (m : Manager) (req : CreateTenantRequest) (env : Manager.CreateEnv)
    (hnone : m.store.GetTenant (sanitizeID req.Subdomain) = none) (hmk : env.mkdirOK = true) :
    ∃ t, t.ID = sanitizeID req.Subdomain ∧ t.Port = m.store.GetNextPort ∧
      (m.CreateTenant req env).1.store = m.store.put t := by
  rcases CreateTenant_store m req env with ⟨hc, _⟩ | ⟨tenant, hid, hport, _, _, hs | ⟨pid, hs⟩⟩
  · rcases hc with hc | hc
    · rw [hnone] at hc; simp at hc
    · rw [hmk] at hc; simp at hc
  · exact ⟨tenant, hid, hport, hs⟩
  · exact ⟨{ tenant with Status := "running", PID := pid, UpdatedAt := env.start.updatedAt },
      hid, hport, hs⟩

/-! ## Port allocation -/

/-- C1, counterexample.  A store whose only tenant holds the largest Go `int` as its port:
the addition in `GetNextPort` wraps around, and the result, the smallest `int`, is not the
largest port plus one. -/
theorem GetNextPort_wraps_at_maxInt64 :
    (sampleStore [sampleTenant "a" maxInt64]).GetNextPort = -9223372036854775808 ∧
    (sampleStore [sampleTenant "a" maxInt64]).GetNextPort
      ≠ maxPortOf (sampleStore [sampleTenant "a" maxInt64]) + 1 := by
  decide

/-- C1, amended.  For every store whose ports are all below the largest Go `int`,
`GetNextPort` returns `max(8080, largest port) + 1`, where that maximum is at least 8080,
at least every port held, and is 8080 or a port held; it returns 8081 for the empty store
and 8084 when the ports held are 8081, 8082 and 8083; and `CreateTenant`, when the ID is
free and the data directory can be made, stores the new tenant with exactly this port,
which is also the port of the tenant in a successful response. -/
theorem GetNextPort_is_max_plus_one (m : Manager)
    (h : ∀ t ∈ m.store.tenants, t.Port < maxInt64) :
    m.store.GetNextPort = maxPortOf m.store + 1 ∧
    (8080 ≤ maxPortOf m.store ∧ (∀ t ∈ m.store.tenants, t.Port ≤ maxPortOf m.store) ∧
      (maxPortOf m.store = 8080 ∨ ∃ t ∈ m.store.tenants, t.Port = maxPortOf m.store)) ∧
    (m.store.tenants = [] → m.store.GetNextPort = 8081) ∧
    ((∀ p, p ∈ portsOf m.store ↔ p = 8081 ∨ p = 8082 ∨ p = 8083) →
      m.store.GetNextPort = 8084) ∧
    (∀ req env, m.store.GetTenant (sanitizeID req.Subdomain) = none → env.mkdirOK = true →
      ∃ t, (m.CreateTenant req env).1.store.GetTenant (sanitizeID req.Subdomain) = some t ∧
        t.Port = m.store.GetNextPort) ∧
    (∀ req env resp, (m.CreateTenant req env).2 = .ok resp →
      resp.Tenant.Port = m.store.GetNextPort) := by
  have hlt : maxPortOf m.store < maxInt64 := by
    rcases maxPortOf_attained m.store with h0 | ⟨t, ht, hp⟩
    · rw [h0]; decide
    · rw [← hp]; exact h t ht
  have hnext := GetNextPort_exact m.store hlt
  refine ⟨hnext, ⟨le_maxPortOf _, port_le_maxPortOf _, maxPortOf_attained _⟩, ?_, ?_, ?_, ?_⟩
  · intro he
    rw [hnext]; simp [maxPortOf, portsOf, he]
  · intro hp
    rw [hnext]
    have hle : maxPortOf m.store ≤ 8083 := by
      rw [maxPortOf_le_iff]
      refine ⟨by decide, fun t ht => ?_⟩
      have := (hp t.Port).1 (List.mem_map.2 ⟨t, ht, rfl⟩)
      omega
    have hge : 8083 ≤ maxPortOf m.store := by
      rcases List.mem_map.1 ((hp 8083).2 (by simp)) with ⟨t, ht, hpt⟩
      have := port_le_maxPortOf m.store t ht
      have hpt2 : t.Port = 8083 := hpt
      omega
    omega
  · intro req env hnone hmk
    rcases CreateTenant_record m req env hnone hmk with ⟨t, hid, hport, hs⟩
    exact ⟨t, by rw [hs, ← hid]; exact GetTenant_put_self _ _, hport⟩
  · intro req env resp hok
    rcases CreateTenant_cases m req env with ⟨_, e, he⟩ | ⟨tenant, hid, hport, _, hnone, hmk, hrest⟩
    · rw [he] at hok; cases hok
    · rcases hrest with ⟨_, m1, e, he, _⟩ | ⟨_, m1, hs, _, _, _, hrest⟩
      · rw [he] at hok; cases hok
      · rcases hrest with ⟨e, _, he⟩ | ⟨_, he⟩
        · rw [he] at hok; cases hok
        · rw [he] at hok
          simp only [Except.ok.injEq] at hok
          rw [← hok]
          simp only [Manager.triggerCaddyReload_store]
          rcases StartTenant_store m1 tenant.ID env.start with h1 | ⟨t, pid, ht, h1⟩
          · rw [h1, hs, GetTenant_put_self]; exact hport
          · rw [hs, GetTenant_put_self] at ht
            cases ht
            rw [h1]
            have := GetTenant_put_self m1.store
              { tenant with Status := "running", PID := pid, UpdatedAt := env.start.updatedAt }
            simp only at this
            rw [this]; exact hport

/-- C1, instance of the amended statement at the supervisor of the stores of the example:
tenants `a`, `b`, `c` on ports 8081, 8083, 8082. -/
theorem GetNextPort_is_max_plus_one_witness :
    (NewManager (sampleStore [sampleTenant "a" 8081, sampleTenant "b" 8083,
        sampleTenant "c" 8082])).store.GetNextPort = 8084 := by
  have h := (GetNextPort_is_max_plus_one
    (NewManager (sampleStore [sampleTenant "a" 8081, sampleTenant "b" 8083,
        sampleTenant "c" 8082])) (by decide)).2.2.2.1
  exact h (by
    intro p
    simp only [portsOf, NewManager, sampleStore, sampleTenant, List.map_cons, List.map_nil,
      List.mem_cons, List.mem_singleton, List.not_mem_nil, or_false]
    omega)

/-- C2, counterexample.  Two tenants hold the largest and the smallest Go `int` as ports,
which are distinct; the next `CreateTenant` is given the wrapped-around port, the smallest
`int`, a second time. -/
theorem ports_collide_after_wraparound :
    (portsOf (sampleStore [sampleTenant "a" maxInt64,
        sampleTenant "b" (-9223372036854775808)])).Nodup ∧
    ¬ (portsOf (runOps (NewManager (sampleStore [sampleTenant "a" maxInt64,
        sampleTenant "b" (-9223372036854775808)]))
        [.create (sampleRequest "c") brokenCreate]).store).Nodup := by
  decide

/-- C2, amended.  From a store with pairwise distinct ports, after every sequence of
`CreateTenant` and `DeleteTenant` calls that is short enough for the ports to stay within
the Go `int` (largest port, or 8080, plus the number of calls is at most the largest
`int`), whatever the world answers to each call, the ports of the store are still
pairwise distinct; and before each call of the sequence the port `GetNextPort` returns is
strictly greater than every port held. -/
theorem ports_stay_distinct (m : Manager) (ops : List Op)
    (hd : (portsOf m.store).Nodup)
    (hb : maxPortOf m.store + ops.length ≤ maxInt64) :
    (portsOf (runOps m ops).store).Nodup ∧
    ∀ pre op post, ops = pre ++ op :: post →
      ∀ t ∈ (runOps m pre).store.tenants, t.Port < (runOps m pre).store.GetNextPort := by
  have h0 : PortsBelow m.store (maxPortOf m.store) := ⟨hd, le_refl _⟩
  refine ⟨(runOps_ports ops m _ h0 hb).1, ?_⟩
  intro pre op post hops t ht
  have hlen : (ops.length : Int) = pre.length + 1 + post.length := by
    rw [hops]; simp; ring
  have hpre := runOps_ports pre m _ h0 (by omega)
  have hlt : maxPortOf (runOps m pre).store < maxInt64 := by
    have := hpre.2
    omega
  rw [GetNextPort_exact _ hlt]
  have := port_le_maxPortOf _ t ht
  omega

/-- C2, instance of the amended statement: from the empty store, two creates (the second
with a failing start), a delete and another create. -/
theorem ports_stay_distinct_witness :
    (portsOf (runOps (NewManager (sampleStore []))
      [.create (sampleRequest "a") (healthyCreate 100),
       .create (sampleRequest "b") brokenCreate,
       .delete (ascii "a") true quickDelete,
       .create (sampleRequest "c") (healthyCreate 101)]).store).Nodup :=
  (ports_stay_distinct (NewManager (sampleStore []))
      [.create (sampleRequest "a") (healthyCreate 100),
       .create (sampleRequest "b") brokenCreate,
       .delete (ascii "a") true quickDelete,
       .create (sampleRequest "c") (healthyCreate 101)] (by decide) (by decide)).1

/-- C3, counterexample.  From the empty store, tenants `a` and `b` are created and get
ports 8081 and 8082; `b` is deleted; the tenant `c` created next gets 8082, the port of
the deleted tenant. -/
theorem port_of_deleted_tenant_is_reused :
    ((runOps (NewManager (sampleStore []))
      [.create (sampleRequest "a") (healthyCreate 100),
       .create (sampleRequest "b") (healthyCreate 101)]).store.GetTenant (ascii "b")).map
        (fun t => t.Port) = some 8082 ∧
    (runOps (NewManager (sampleStore []))
      [.create (sampleRequest "a") (healthyCreate 100),
       .create (sampleRequest "b") (healthyCreate 101),
       .delete (ascii "b") false quickDelete]).store.GetTenant (ascii "b") = none ∧
    ((runOps (NewManager (sampleStore []))
      [.create (sampleRequest "a") (healthyCreate 100),
       .create (sampleRequest "b") (healthyCreate 101),
       .delete (ascii "b") false quickDelete,
       .create (sampleRequest "c") (healthyCreate 102)]).store.GetTenant (ascii "c")).map
        (fun t => t.Port) = some 8082 := by
  decide

/-- C3, amended.  After every sequence of calls, a `CreateTenant` that stores a new tenant
(free ID, data directory made) gives it a port strictly greater than, hence different
from, the port of every tenant that is in the store at that moment, provided those ports
are below the largest Go `int`. -/
theorem new_port_above_current_ports (m : Manager) (ops : List Op)
    (req : CreateTenantRequest) (env : Manager.CreateEnv)
    (hb : ∀ u ∈ (runOps m ops).store.tenants, u.Port < maxInt64)
    (hnone : (runOps m ops).store.GetTenant (sanitizeID req.Subdomain) = none)
    (hmk : env.mkdirOK = true) :
    ∃ t, (runOps m (ops ++ [.create req env])).store.GetTenant (sanitizeID req.Subdomain)
        = some t ∧
      ∀ u ∈ (runOps m ops).store.tenants, u.Port < t.Port ∧ u.Port ≠ t.Port := by
  have hlt : maxPortOf (runOps m ops).store < maxInt64 := by
    rcases maxPortOf_attained (runOps m ops).store with h0 | ⟨t, ht, hp⟩
    · rw [h0]; decide
    · rw [← hp]; exact hb t ht
  rcases CreateTenant_record (runOps m ops) req env hnone hmk with ⟨t, hid, hport, hs⟩
  refine ⟨t, ?_, ?_⟩
  · rw [runOps_append]
    show ((runOps m ops).CreateTenant req env).1.store.GetTenant _ = _
    rw [hs, ← hid]; exact GetTenant_put_self _ _
  · intro u hu
    rw [hport, GetNextPort_exact _ hlt]
    have := port_le_maxPortOf _ u hu
    omega

/-- C3, instance of the amended statement: after `a` and `b` are created, the port of a
new tenant `c` is above both. -/
theorem new_port_above_current_ports_witness :
    ∃ t, (runOps (NewManager (sampleStore []))
        ([.create (sampleRequest "a") (healthyCreate 100),
          .create (sampleRequest "b") (healthyCreate 101)] ++
         [.create (sampleRequest "c") (healthyCreate 102)])).store.GetTenant
          (sanitizeID (sampleRequest "c").Subdomain) = some t ∧
      ∀ u ∈ (runOps (NewManager (sampleStore []))
        [.create (sampleRequest "a") (healthyCreate 100),
         .create (sampleRequest "b") (healthyCreate 101)]).store.tenants,
        u.Port < t.Port ∧ u.Port ≠ t.Port :=
  new_port_above_current_ports (NewManager (sampleStore []))
    [.create (sampleRequest "a") (healthyCreate 100),
     .create (sampleRequest "b") (healthyCreate 101)]
    (sampleRequest "c") (healthyCreate 102) (by decide) (by decide) (by decide)

/-! ## Normalisation of IDs -/

/-- The lowercase letter of an uppercase ASCII byte is the byte plus 32. -/
theorem toLower_upper (c : Nat) (h1 : 65 ≤ c) (h2 : c ≤ 90) :
    (Char.ofNat c).toLower.toNat = (c + 32) % 256 := by
  interval_cases c <;> rfl

/-- One round of the loop of `sanitizeID` appends what `normByte` keeps of the byte. -/
theorem sanitize_step (result : Bytes) (c : Nat) :
    (if (c ≥ 97 ∧ c ≤ 122) ∨ (c ≥ 48 ∧ c ≤ 57) ∨ c = 45 then result ++ [c]
      else if c ≥ 65 ∧ c ≤ 90 then result ++ [(c + 32) % 256]
      else if c = 95 ∨ c = 32 then result ++ [45]
      else result) = result ++ (normByte c).toList := by
  unfold normByte
  by_cases h1 : (97 ≤ c ∧ c ≤ 122) ∨ (48 ≤ c ∧ c ≤ 57) ∨ c = 45
  · simp [h1]
  · by_cases h2 : 65 ≤ c ∧ c ≤ 90
    · simp [h1, h2, toLower_upper c h2.1 h2.2]
    · by_cases h3 : c = 95 ∨ c = 32
      · simp [h1, h2, h3]
      · simp [h1, h2, h3]

theorem sanitize_foldl (s : Bytes) (acc : Bytes) :
    s.foldl (fun result c =>
      if (c ≥ 97 ∧ c ≤ 122) ∨ (c ≥ 48 ∧ c ≤ 57) ∨ c = 45 then result ++ [c]
      else if c ≥ 65 ∧ c ≤ 90 then result ++ [(c + 32) % 256]
      else if c = 95 ∨ c = 32 then result ++ [45]
      else result) acc = acc ++ normalise s := by
  induction s generalizing acc with
  | nil => simp [normalise]
  | cons c cs ih =>
    rw [List.foldl_cons, sanitize_step, ih]
    unfold normalise
    cases h : normByte c <;> simp [List.filterMap_cons, h]

theorem normByte_slug (c b : Nat) (h : normByte c = some b) : isSlugByte b := by
  unfold normByte at h
  unfold isSlugByte
  split at h
  · rename_i hc; cases h; exact hc
  · split at h
    · rename_i hc
      cases h
      rw [toLower_upper c hc.1 hc.2]
      omega
    · split at h
      · cases h; right; right; rfl
      · cases h

/-- C4.  For every byte string `s`, `sanitizeID s` is the reference normalisation of `s`
(each byte kept, lowercased, turned into a hyphen or dropped, in order); every byte of the
result is in `[a-z0-9-]`, and the result is not longer than `s`. -/
theorem sanitizeID_eq_normalise (s : Bytes) :
    sanitizeID s = normalise s ∧
    (∀ b ∈ sanitizeID s, isSlugByte b) ∧
    (sanitizeID s).length ≤ s.length := by
  have h : sanitizeID s = normalise s := by
    unfold sanitizeID
    rw [sanitize_foldl]; simp
  rw [h]
  refine ⟨rfl, ?_, ?_⟩
  · intro b hb
    unfold normalise at hb
    rcases List.mem_filterMap.1 hb with ⟨c, _, hc⟩
    exact normByte_slug c b hc
  · unfold normalise
    exact List.length_filterMap_le _ _

/-! ## CreateTenant on an ID in use -/

/-- C5.  When the store holds a tenant under the ID to which the subdomain of a create
request normalises (`GetTenant` of that ID is not nil), `CreateTenant` returns the
already-exists error and the state of the supervisor is the state before the call: the
same store with the same records and ports, the same registry, no child spawned, no
effect on the operating system, no reload signal. -/
theorem CreateTenant_conflict_no_effect (m : Manager) (req : CreateTenantRequest)
    (env : Manager.CreateEnv)
    (hex : (m.store.GetTenant (sanitizeID req.Subdomain)).isSome = true) :
    m.CreateTenant req env = (m, .error (.alreadyExists req.Subdomain)) ∧
    (m.CreateTenant req env).1.store = m.store ∧
    (m.CreateTenant req env).1.processes = m.processes ∧
    spawnCount (m.CreateTenant req env).1 = spawnCount m ∧
    (m.CreateTenant req env).1.effects = m.effects ∧
    (m.CreateTenant req env).1.caddyReload = m.caddyReload := by
  have h : m.CreateTenant req env = (m, .error (.alreadyExists req.Subdomain)) := by
    unfold Manager.CreateTenant
    simp [hex]
  rw [h]
  exact ⟨rfl, rfl, rfl, rfl, rfl, rfl⟩

/-- C5, instance: the store holds `acme` and the request asks for subdomain `Acme`, which
normalises to `acme`. -/
theorem CreateTenant_conflict_no_effect_witness :
    sanitizeID (sampleRequest "Acme").Subdomain = ascii "acme" ∧
    (NewManager (sampleStore [sampleTenant "acme" 8081])).CreateTenant (sampleRequest "Acme")
        (healthyCreate 7)
      = (NewManager (sampleStore [sampleTenant "acme" 8081]),
         .error (.alreadyExists (ascii "Acme"))) :=
  ⟨by decide,
   (CreateTenant_conflict_no_effect (NewManager (sampleStore [sampleTenant "acme" 8081]))
    (sampleRequest "Acme") (healthyCreate 7) (by decide)).1⟩

/-! ## Idempotent start -/

@[simp] theorem spawnCount_emit_mkdirAll (m : Manager) (p : Bytes) :
    spawnCount (m.emit (.mkdirAll p)) = spawnCount m := rfl
@[simp] theorem spawnCount_emit_goMonitor (m : Manager) (id : Bytes) (pid : Nat) :
    spawnCount (m.emit (.goMonitor id pid)) = spawnCount m := rfl
@[simp] theorem spawnCount_emit_spawn (m : Manager) (id d : Bytes) (p : Int) (c : Nat) :
    spawnCount (m.emit (.spawn id d p c)) = spawnCount m + 1 := rfl

theorem spawnCount_congr (m m1 : Manager) (h : m1.effects = m.effects) :
    spawnCount m1 = spawnCount m := by
  unfold spawnCount; rw [h]

@[simp] theorem Manager.appendLog_effects (m : Manager) (id c : Bytes) :
    (m.appendLog id c).effects = m.effects := by
  unfold Manager.appendLog; split <;> rfl

@[simp] theorem Manager.childOutput_effects (m : Manager) (id : Bytes)
    (env : Manager.StartEnv) : (m.childOutput id env).effects = m.effects := by
  unfold Manager.childOutput; split <;> simp

theorem spawnCount_openLog (m : Manager) (id d : Bytes) (p : Int) (env : Manager.StartEnv) :
    spawnCount (m.openLog id d p env) = spawnCount m := by
  unfold Manager.openLog
  dsimp only
  split <;> split <;> rfl

theorem spawnCount_spawned (m : Manager) (id : Bytes) (tenant : Tenant)
    (env : Manager.StartEnv) : spawnCount (m.spawned id tenant env) = spawnCount m + 1 := by
  unfold Manager.spawned
  dsimp only
  rw [spawnCount_congr _ _ (Manager.childOutput_effects _ _ _), spawnCount_emit_spawn,
    spawnCount_openLog]
  rfl

theorem registerStarted_facts (m : Manager) (id : Bytes) (tenant : Tenant) (pid ctx : Nat)
    (env : Manager.StartEnv) (hid : tenant.ID = id) :
    (m.registerStarted id tenant pid ctx env).alreadyRunning id = true ∧
    registeredCount (m.registerStarted id tenant pid ctx env) id = 1 ∧
    spawnCount (m.registerStarted id tenant pid ctx env) = spawnCount m ∧
    ((m.registerStarted id tenant pid ctx env).store.GetTenant id).isSome = true := by
  refine ⟨?_, ?_, ?_, ?_⟩
  · simp [Manager.registerStarted, Manager.alreadyRunning, Manager.lookupProcess,
      Manager.register, Manager.emit]
  · simp [Manager.registerStarted, registeredCount, Manager.register, Manager.emit,
      List.filter_filter]
  · simp [Manager.registerStarted, spawnCount, Manager.register, Manager.emit]
  · simp [Manager.registerStarted, Manager.register, Manager.emit, Store.UpdateTenant,
      Store.GetTenant, Store.put, hid]

theorem StartTenant_of_running (m : Manager) (id : Bytes) (env : Manager.StartEnv)
    (hrec : (m.store.GetTenant id).isSome = true) (hrun : m.alreadyRunning id = true) :
    m.StartTenant id env = (m, none) := by
  unfold Manager.StartTenant
  cases h : m.store.GetTenant id with
  | none => rw [h] at hrec; simp at hrec
  | some tenant => simp [hrun]

/-- C6.  `StartTenant` is idempotent.  For a tenant with a record whose registry entry
holds a started child, `StartTenant` returns nil and the whole state is the state before
the call: same registry, same record (status, pid, time of update), same log file, no
child spawned.  Hence, for a tenant that is not registered, when a first `StartTenant`
succeeds, a second one in the state it leaves returns nil and changes nothing: the
registry holds exactly one process for the ID and the two calls together spawned exactly
one child. -/
theorem StartTenant_idempotent (m : Manager) (id : Bytes) (env : Manager.StartEnv) :
    (∀ proc, (m.store.GetTenant id).isSome = true → m.lookupProcess id = some proc →
      proc.CmdProcess.isSome = true →
      m.StartTenant id env = (m, none) ∧
      (m.StartTenant id env).1.processes = m.processes ∧
      (m.StartTenant id env).1.store.GetTenant id = m.store.GetTenant id ∧
      (m.StartTenant id env).1.logOf id = m.logOf id ∧
      spawnCount (m.StartTenant id env).1 = spawnCount m) ∧
    (∀ env2, m.lookupProcess id = none → (m.StartTenant id env).2 = none →
      (m.StartTenant id env).1.StartTenant id env2 = ((m.StartTenant id env).1, none) ∧
      registeredCount ((m.StartTenant id env).1.StartTenant id env2).1 id = 1 ∧
      spawnCount ((m.StartTenant id env).1.StartTenant id env2).1 = spawnCount m + 1) := by
  constructor
  · intro proc hrec hp hproc
    have hrun : m.alreadyRunning id = true := by
      unfold Manager.alreadyRunning; rw [hp]; exact hproc
    have h := StartTenant_of_running m id env hrec hrun
    rw [h]
    exact ⟨rfl, rfl, rfl, rfl, rfl⟩
  · intro env2 hp hok
    have hnot : m.alreadyRunning id = false := by
      unfold Manager.alreadyRunning; rw [hp]
    rcases StartTenant_cases m id env with ⟨e, m1, h, _⟩ | ⟨_, hr, _⟩ | ⟨t, pid, ht, _, _, h⟩
    · rw [h] at hok; cases hok
    · rw [hr] at hnot; cases hnot
    · have hid := (GetTenant_some _ _ _ ht).2
      have hf := registerStarted_facts (m.spawned id t env) id t pid m.nextCtx env hid
      have h2 : (m.StartTenant id env).1.StartTenant id env2 = ((m.StartTenant id env).1, none) := by
        rw [h]
        exact StartTenant_of_running _ id env2 hf.2.2.2 hf.1
      rw [h2]
      rw [h]
      exact ⟨rfl, hf.2.1, by rw [hf.2.2.1, spawnCount_spawned]⟩

/-- C6, instance: tenant `acme` of `runningAcme` is registered with child 4242, and a
`StartTenant` leaves the state as it is. -/
theorem StartTenant_idempotent_witness :
    runningAcme.StartTenant (ascii "acme") (healthyStart 9) = (runningAcme, none) :=
  ((StartTenant_idempotent runningAcme (ascii "acme") (healthyStart 9)).1
    { Tenant := ascii "acme", CmdProcess := some 4242, StartedAt := 1, ctx := 0 }
    (by decide) (by decide) (by decide)).1

/-! ## StopTenant -/

theorem lookupProcess_unregister_self (m : Manager) (id : Bytes) :
    (m.unregister id).lookupProcess id = none := by
  unfold Manager.lookupProcess Manager.unregister
  rw [Option.map_eq_none', List.find?_eq_none]
  intro x hx
  have := List.of_mem_filter hx
  simpa using this

theorem lookupProcess_unregister_other (m : Manager) (id id1 : Bytes) (h : id1 ≠ id) :
    (m.unregister id).lookupProcess id1 = m.lookupProcess id1 := by
  unfold Manager.lookupProcess Manager.unregister
  congr 1
  apply find?_filter_of_imp
  intro x hx
  simp only [decide_eq_true_eq] at hx
  simp [hx, h]

theorem stopSignal_fields (m : Manager) (proc : Process) (env : Manager.StopEnv) :
    (m.stopSignal proc env).store = m.store ∧
    (m.stopSignal proc env).processes = m.processes ∧
    (m.stopSignal proc env).canceled = proc.ctx :: m.canceled ∧
    (m.stopSignal proc env).caddyReload = m.caddyReload := by
  unfold Manager.stopSignal
  dsimp only
  split
  · split <;> exact ⟨rfl, rfl, rfl, rfl⟩
  · exact ⟨rfl, rfl, rfl, rfl⟩

theorem stopPersist_fields (m : Manager) (id : Bytes) (env : Manager.StopEnv) :
    (m.stopPersist id env).processes = m.processes ∧
    (m.stopPersist id env).canceled = m.canceled ∧
    (m.stopPersist id env).caddyReload = m.caddyReload ∧
    (∀ t, m.store.GetTenant id = some t → (m.stopPersist id env).store =
      m.store.put { t with Status := "stopped", PID := 0, UpdatedAt := env.now }) ∧
    (m.store.GetTenant id = none → (m.stopPersist id env).store = m.store) := by
  unfold Manager.stopPersist
  split
  · rename_i t ht
    refine ⟨rfl, rfl, rfl, ?_, ?_⟩
    · intro t1 h1; rw [ht] at h1; cases h1; rfl
    · intro h; rw [ht] at h; cases h
  · rename_i ht
    refine ⟨rfl, rfl, rfl, ?_, ?_⟩
    · intro t1 h1; rw [ht] at h1; cases h1
    · intro _; rfl

/-- The state `StopTenant` leaves for a registered tenant. -/
theorem StopTenant_registered (m : Manager) (id : Bytes) (env : Manager.StopEnv)
    (proc : Process) (hp : m.lookupProcess id = some proc) :
    m.StopTenant id env = ((((m.stopSignal proc env).stopUnregister id).stopPersist id env), none) := by
  unfold Manager.StopTenant Manager.stopLookup
  rw [hp]

/-- What `StopTenant` leaves for a registered ID: nil is returned, the scope is canceled,
the entry is gone, the record is `stopped` with pid 0, other IDs are untouched. -/
theorem StopTenant_registered_after (m : Manager) (id : Bytes) (env : Manager.StopEnv)
    (proc : Process) (hp : m.lookupProcess id = some proc) :
    (m.StopTenant id env).2 = none ∧
    (m.StopTenant id env).1.isCanceled proc.ctx = true ∧
    (m.StopTenant id env).1.lookupProcess id = none ∧
    (∀ t, m.store.GetTenant id = some t →
      (m.StopTenant id env).1.store.GetTenant id =
        some { t with Status := "stopped", PID := 0, UpdatedAt := env.now }) ∧
    (∀ id1, id1 ≠ id →
      (m.StopTenant id env).1.lookupProcess id1 = m.lookupProcess id1 ∧
      (m.StopTenant id env).1.store.GetTenant id1 = m.store.GetTenant id1) := by
  rw [StopTenant_registered m id env proc hp]
  have hs := stopSignal_fields m proc env
  have hq := stopPersist_fields ((m.stopSignal proc env).stopUnregister id) id env
  have hst : ((m.stopSignal proc env).stopUnregister id).store = m.store := hs.1
  have hlk : ∀ id1, (((m.stopSignal proc env).stopUnregister id).stopPersist id env).lookupProcess id1
      = (m.unregister id).lookupProcess id1 := by
    intro id1
    unfold Manager.lookupProcess
    rw [hq.1]
    unfold Manager.stopUnregister Manager.unregister
    simp only [hs.2.1]
  refine ⟨rfl, ?_, ?_, ?_, ?_⟩
  · unfold Manager.isCanceled
    simp only [hq.2.1]
    show decide (proc.ctx ∈ (m.stopSignal proc env).canceled) = true
    rw [hs.2.2.1]; simp
  · rw [hlk]; exact lookupProcess_unregister_self m id
  · intro t ht
    have hid := (GetTenant_some _ _ _ ht).2
    rw [hq.2.2.2.1 t (by rw [hst]; exact ht), hst, ← hid]
    exact GetTenant_put_self m.store
      { t with Status := "stopped", PID := 0, UpdatedAt := env.now }
  · intro id1 hne
    refine ⟨by rw [hlk]; exact lookupProcess_unregister_other m id id1 hne, ?_⟩
    cases ht : m.store.GetTenant id with
    | none => rw [hq.2.2.2.2 (by rw [hst]; exact ht), hst]
    | some t =>
      have hid := (GetTenant_some _ _ _ ht).2
      rw [hq.2.2.2.1 t (by rw [hst]; exact ht), hst]
      exact GetTenant_put_other _ _ _ (by simp [hid, hne])

/-- `StopTenant` run without interruption.  For an ID without a registry entry it returns
nil and leaves the whole state as it was.  For an ID with a registry entry, whether the
child exited within the grace period or was killed after it, it returns nil and leaves
the scope of the process canceled, no registry entry for the ID, the record of the tenant
with status `stopped` and pid 0, and the entries and records of the other IDs as they
were. -/
theorem StopTenant_uninterrupted (m : Manager) (id : Bytes) (env : Manager.StopEnv) :
    (m.lookupProcess id = none → m.StopTenant id env = (m, none)) ∧
    (∀ proc, m.lookupProcess id = some proc →
      (m.StopTenant id env).2 = none ∧
      (m.StopTenant id env).1.isCanceled proc.ctx = true ∧
      (m.StopTenant id env).1.lookupProcess id = none ∧
      (∀ t, m.store.GetTenant id = some t →
        (m.StopTenant id env).1.store.GetTenant id =
          some { t with Status := "stopped", PID := 0, UpdatedAt := env.now }) ∧
      (∀ id1, id1 ≠ id →
        (m.StopTenant id env).1.lookupProcess id1 = m.lookupProcess id1 ∧
        (m.StopTenant id env).1.store.GetTenant id1 = m.store.GetTenant id1)) := by
  constructor
  · intro h
    unfold Manager.StopTenant Manager.stopLookup
    rw [h]
  · intro proc hp
    exact StopTenant_registered_after m id env proc hp

/-! ## The crash monitor -/

theorem monitorUnregister_registered (m : Manager) (id : Bytes) (proc : Process)
    (hp : m.lookupProcess id = some proc) :
    m.monitorUnregister id = (m.unregister id, some proc) := by
  unfold Manager.monitorUnregister; rw [hp]

theorem monitorUnregister_unregistered (m : Manager) (id : Bytes)
    (hp : m.lookupProcess id = none) : m.monitorUnregister id = (m, none) := by
  unfold Manager.monitorUnregister; rw [hp]

/-- The update of the record by the monitor, for a tenant with a record. -/
theorem monitorClassify_record (m : Manager) (id : Bytes) (proc : Option Process)
    (env : Manager.MonitorEnv) (t : Tenant) (ht : m.store.GetTenant id = some t) :
    (m.monitorClassify id proc env).2 = (env.waitErr && !m.wasIntentionallyStopped proc) ∧
    (m.monitorClassify id proc env).1.processes = m.processes ∧
    (m.monitorClassify id proc env).1.store.GetTenant id = some
      { t with
        Status := if (env.waitErr && !m.wasIntentionallyStopped proc) = true then "error"
          else "stopped",
        PID := 0, UpdatedAt := env.now } := by
  have hid := (GetTenant_some _ _ _ ht).2
  unfold Manager.monitorClassify
  rw [ht]
  refine ⟨rfl, rfl, ?_⟩
  simp only [Store.UpdateTenant, ite_self]
  rw [← hid]
  exact GetTenant_put_self m.store _

/-- C8, counterexample.  Tenant `acme` is registered, its scope is not canceled, and its
child exits with status 0 (`cmd.Wait()` returns nil): the monitor sets the status to
`stopped`, not `error`, and does not invoke `StartTenant`. -/
theorem clean_exit_is_not_a_crash :
    runningAcme.isCanceled 0 = false ∧
    runningAcme.lookupProcess (ascii "acme")
      = some { Tenant := ascii "acme", CmdProcess := some 4242, StartedAt := 1, ctx := 0 } ∧
    (runningAcme.monitorProcess (ascii "acme") cleanExit).2 = false ∧
    ((runningAcme.monitorProcess (ascii "acme") cleanExit).1.store.GetTenant (ascii "acme")).map
      (fun t => (t.Status, t.PID)) = some ("stopped", 0) := by
  decide

/-- C8, amended.  For a registered tenant with a record whose process exits, the monitor
removes the registry entry and classifies the exit by the scope and by the error of
`cmd.Wait()`: when the scope was not canceled and the wait returned an error, the record
gets status `error` and pid 0 and `StartTenant` is then invoked on that state; when the
scope was not canceled and the wait returned nil, the record gets status `stopped` and
pid 0 and `StartTenant` is not invoked; when the scope was canceled, the record gets
status `stopped` and pid 0 and `StartTenant` is not invoked. -/
theorem monitorProcess_classification (m : Manager) (id : Bytes) (env : Manager.MonitorEnv)
    (proc : Process) (t : Tenant) (hp : m.lookupProcess id = some proc)
    (ht : m.store.GetTenant id = some t) :
    (m.monitorUnregister id).1.lookupProcess id = none ∧
    (m.isCanceled proc.ctx = false → env.waitErr = true →
      ∃ m1 : Manager, m1.lookupProcess id = none ∧
        m1.store.GetTenant id = some { t with Status := "error", PID := 0, UpdatedAt := env.now } ∧
        m.monitorProcess id env = ((m1.StartTenant id env.restart).1, true)) ∧
    (m.isCanceled proc.ctx = false → env.waitErr = false →
      (m.monitorProcess id env).2 = false ∧
      (m.monitorProcess id env).1.lookupProcess id = none ∧
      (m.monitorProcess id env).1.store.GetTenant id =
        some { t with Status := "stopped", PID := 0, UpdatedAt := env.now }) ∧
    (m.isCanceled proc.ctx = true →
      (m.monitorProcess id env).2 = false ∧
      (m.monitorProcess id env).1.lookupProcess id = none ∧
      (m.monitorProcess id env).1.store.GetTenant id =
        some { t with Status := "stopped", PID := 0, UpdatedAt := env.now }) := by
  have hu := monitorUnregister_registered m id proc hp
  have hc := monitorClassify_record (m.unregister id) id (some proc) env t ht
  have hw : (m.unregister id).wasIntentionallyStopped (some proc) = m.isCanceled proc.ctx := rfl
  have hl : ((m.unregister id).monitorClassify id (some proc) env).1.lookupProcess id = none := by
    unfold Manager.lookupProcess
    rw [hc.2.1]
    exact lookupProcess_unregister_self m id
  have hmp : m.monitorProcess id env =
      if ((m.unregister id).monitorClassify id (some proc) env).2 = true then
        ((((m.unregister id).monitorClassify id (some proc) env).1.StartTenant id env.restart).1,
          true)
      else (((m.unregister id).monitorClassify id (some proc) env).1, false) := by
    unfold Manager.monitorProcess
    rw [hu]
  refine ⟨by rw [hu]; exact lookupProcess_unregister_self m id, ?_, ?_, ?_⟩
  · intro hnc hw1
    refine ⟨((m.unregister id).monitorClassify id (some proc) env).1, hl, ?_, ?_⟩
    · rw [hc.2.2, hw, hnc, hw1]; rfl
    · rw [hmp, hc.1, hw, hnc, hw1]; rfl
  · intro hnc hw1
    have h2 : ((m.unregister id).monitorClassify id (some proc) env).2 = false := by
      rw [hc.1, hw1]; rfl
    rw [hmp, h2]
    refine ⟨rfl, hl, ?_⟩
    show ((m.unregister id).monitorClassify id (some proc) env).1.store.GetTenant id = _
    rw [hc.2.2, hw1]; rfl
  · intro hcan
    have h2 : ((m.unregister id).monitorClassify id (some proc) env).2 = false := by
      rw [hc.1, hw, hcan]; simp
    rw [hmp, h2]
    refine ⟨rfl, hl, ?_⟩
    show ((m.unregister id).monitorClassify id (some proc) env).1.store.GetTenant id = _
    rw [hc.2.2, hw, hcan]; simp

/-- C8, instance of the amended statement: the child of `acme` exits with an error while
its scope is not canceled, and the monitor restarts it. -/
theorem monitorProcess_classification_witness :
    ∃ m1 : Manager, m1.lookupProcess (ascii "acme") = none ∧
      m1.store.GetTenant (ascii "acme") = some
        { sampleTenant "acme" 8081 with Status := "error", PID := 0, UpdatedAt := 3 } ∧
      runningAcme.monitorProcess (ascii "acme") failedExit
        = ((m1.StartTenant (ascii "acme") failedExit.restart).1, true) :=
  (monitorProcess_classification runningAcme (ascii "acme") failedExit
    { Tenant := ascii "acme", CmdProcess := some 4242, StartedAt := 1, ctx := 0 }
    { sampleTenant "acme" 8081 with Status := "running", PID := 4242 }
    (by decide) (by decide)).2.1 (by decide) (by decide)

/-! ## A deliberate stop racing with the monitor -/

/-- The four steps of `StopTenant` in the race are `StopTenant`. -/
theorem Race_stop_alone (m : Manager) (id : Bytes) (senv : Manager.StopEnv)
    (menv : Manager.MonitorEnv) :
    (Race.run id senv menv (Race.init m) [.stop, .stop, .stop, .stop]).m
      = (m.StopTenant id senv).1 := by
  unfold Manager.StopTenant
  cases h : m.stopLookup id with
  | none => simp [Race.run, Race.step, Race.init, h]
  | some proc => simp [Race.run, Race.step, Race.init, h]

/-- The three steps of the monitor in the race, once the child has been signalled, are
`monitorProcess`. -/
theorem Race_monitor_alone (r : Race) (id : Bytes) (senv : Manager.StopEnv)
    (menv : Manager.MonitorEnv) (hs : 2 ≤ r.stopPc) (hm : r.monPc = 0) :
    (Race.run id senv menv r [.monitor, .monitor, .monitor]).m
      = (r.m.monitorProcess id menv).1 ∧
    ((Race.run id senv menv r [.monitor, .monitor, .monitor]).restarted = true ↔
      (r.restarted = true ∨ (r.m.monitorProcess id menv).2 = true)) := by
  have hlt : ¬ r.stopPc < 2 := by omega
  unfold Manager.monitorProcess
  by_cases hc : ((r.m.monitorUnregister id).1.monitorClassify id (r.m.monitorUnregister id).2 menv).2 = true
  · simp [Race.run, Race.step, hlt, hm, hc]
  · simp [Race.run, Race.step, hlt, hm, hc]

/-- C7, the failing orderings.  Tenant `acme` runs and is registered; `StopTenant` is
called and the child, terminated by the signal, makes `cmd.Wait()` of the monitor return
an error.  (1) When `StopTenant` has run to its end before the monitor enters its
critical section, the monitor finds no registry entry, takes the exit for a crash and
invokes `StartTenant`: the scope was canceled, yet the tenant ends `running` under a new
child.  (2) When the monitor runs between the unregistration and the update of the
record by `StopTenant`, it restarts the tenant as well, and the record ends `stopped` with
a child registered.  (3) Only when the monitor enters its critical section before
`StopTenant` unregisters does it see the canceled scope: no restart, status `stopped`. -/
theorem monitor_restarts_after_deliberate_stop :
    ((Race.run (ascii "acme") quickStop failedExit (Race.init runningAcme)
        [.stop, .stop, .stop, .stop, .monitor, .monitor, .monitor]).restarted = true ∧
     (Race.run (ascii "acme") quickStop failedExit (Race.init runningAcme)
        [.stop, .stop, .stop, .stop, .monitor, .monitor, .monitor]).m.isCanceled 0 = true ∧
     ((Race.run (ascii "acme") quickStop failedExit (Race.init runningAcme)
        [.stop, .stop, .stop, .stop, .monitor, .monitor, .monitor]).m.store.GetTenant
          (ascii "acme")).map (fun t => (t.Status, t.PID)) = some ("running", 4343)) ∧
    ((Race.run (ascii "acme") quickStop failedExit (Race.init runningAcme)
        [.stop, .stop, .stop, .monitor, .monitor, .monitor, .stop]).restarted = true ∧
     ((Race.run (ascii "acme") quickStop failedExit (Race.init runningAcme)
        [.stop, .stop, .stop, .monitor, .monitor, .monitor, .stop]).m.store.GetTenant
          (ascii "acme")).map (fun t => (t.Status, t.PID)) = some ("stopped", 0) ∧
     ((Race.run (ascii "acme") quickStop failedExit (Race.init runningAcme)
        [.stop, .stop, .stop, .monitor, .monitor, .monitor, .stop]).m.lookupProcess
          (ascii "acme")).map (fun p => p.CmdProcess) = some (some 4343)) ∧
    ((Race.run (ascii "acme") quickStop failedExit (Race.init runningAcme)
        [.stop, .stop, .monitor, .monitor, .monitor, .stop, .stop]).restarted = false ∧
     ((Race.run (ascii "acme") quickStop failedExit (Race.init runningAcme)
        [.stop, .stop, .monitor, .monitor, .monitor, .stop, .stop]).m.store.GetTenant
          (ascii "acme")).map (fun t => (t.Status, t.PID)) = some ("stopped", 0)) := by
  decide

/-- The failing ordering of C7 for every tenant: whenever a registered tenant with a
record is stopped and the monitor, whose wait returned an error, runs after `StopTenant`
has returned, the monitor invokes `StartTenant`. -/
theorem monitor_after_stop_restarts (m : Manager) (id : Bytes) (senv : Manager.StopEnv)
    (menv : Manager.MonitorEnv) (proc : Process) (t : Tenant)
    (hp : m.lookupProcess id = some proc) (ht : m.store.GetTenant id = some t)
    (hw : menv.waitErr = true) :
    ((m.StopTenant id senv).1.monitorProcess id menv).2 = true := by
  have hpost := StopTenant_registered_after m id senv proc hp
  have hrec := hpost.2.2.2.1 t ht
  have hu := monitorUnregister_unregistered _ id hpost.2.2.1
  have hc := monitorClassify_record (m.StopTenant id senv).1 id none menv _ hrec
  unfold Manager.monitorProcess
  rw [hu]
  dsimp only
  rw [hc.1, hw]
  simp [Manager.wasIntentionallyStopped]

/-- C10, the failing input.  Tenant `acme` runs and is registered under scope 0.
`StopTenant("acme")` cancels the scope, signals the child, waits and deletes the registry
entry; the exit of the child wakes the monitor, whose wait returned an error, and the
monitor runs between that deletion and the update of the record by `StopTenant`: it finds
no entry, takes the exit for a crash and starts the tenant again.  When `StopTenant`
returns (all its four parts done), the scope is canceled and the record has status
`stopped` and pid 0, but the registry holds an entry for `acme`, with child 4343; this is
so whether the child exited within the grace period or was killed after it.  Run without
the monitor in between, the same call leaves no entry. -/
theorem stop_returns_with_process_registered :
    runningAcme.lookupProcess (ascii "acme")
      = some (Process.mk (ascii "acme") (some 4242) 1 0) ∧
    ((Race.run (ascii "acme") quickStop failedExit (Race.init runningAcme)
        [.stop, .stop, .stop, .monitor, .monitor, .monitor, .stop]).stopPc = 4 ∧
     (Race.run (ascii "acme") quickStop failedExit (Race.init runningAcme)
        [.stop, .stop, .stop, .monitor, .monitor, .monitor, .stop]).m.isCanceled 0 = true ∧
     ((Race.run (ascii "acme") quickStop failedExit (Race.init runningAcme)
        [.stop, .stop, .stop, .monitor, .monitor, .monitor, .stop]).m.lookupProcess
          (ascii "acme")).isSome = true ∧
     ((Race.run (ascii "acme") quickStop failedExit (Race.init runningAcme)
        [.stop, .stop, .stop, .monitor, .monitor, .monitor, .stop]).m.lookupProcess
          (ascii "acme")).bind (fun p => p.CmdProcess) = some 4343 ∧
     ((Race.run (ascii "acme") quickStop failedExit (Race.init runningAcme)
        [.stop, .stop, .stop, .monitor, .monitor, .monitor, .stop]).m.store.GetTenant
          (ascii "acme")).map (fun t => (t.Status, t.PID)) = some ("stopped", 0)) ∧
    ((Race.run (ascii "acme") forcedStop failedExit (Race.init runningAcme)
        [.stop, .stop, .stop, .monitor, .monitor, .monitor, .stop]).stopPc = 4 ∧
     ((Race.run (ascii "acme") forcedStop failedExit (Race.init runningAcme)
        [.stop, .stop, .stop, .monitor, .monitor, .monitor, .stop]).m.lookupProcess
          (ascii "acme")).isSome = true) ∧
    ((Race.run (ascii "acme") quickStop failedExit (Race.init runningAcme)
        [.stop, .stop, .stop, .stop]).stopPc = 4 ∧
     (Race.run (ascii "acme") quickStop failedExit (Race.init runningAcme)
        [.stop, .stop, .stop, .stop]).m = (runningAcme.StopTenant (ascii "acme") quickStop).1 ∧
     (runningAcme.StopTenant (ascii "acme") quickStop).1.lookupProcess (ascii "acme")
        = none) := by
  decide

/-! ## The reload channel -/

theorem StartTenant_caddyReload (m : Manager) (id : Bytes) (env : Manager.StartEnv) :
    (m.StartTenant id env).1.caddyReload = m.caddyReload := by
  rcases StartTenant_cases m id env with ⟨e, m1, h, _, _, hc⟩ | ⟨h, _, _⟩ | ⟨t, pid, _, _, _, h⟩
  · rw [h]; exact hc
  · rw [h]
  · rw [h]
    simp [Manager.registerStarted, Manager.spawned]

theorem StopTenant_caddyReload (m : Manager) (id : Bytes) (env : Manager.StopEnv) :
    (m.StopTenant id env).1.caddyReload = m.caddyReload := by
  cases hp : m.lookupProcess id with
  | none =>
    unfold Manager.StopTenant Manager.stopLookup
    rw [hp]
  | some proc =>
    rw [StopTenant_registered m id env proc hp]
    rw [(stopPersist_fields _ id env).2.2.1]
    exact (stopSignal_fields m proc env).2.2.2

/-- The reload channel after one emission: same capacity, one more value when there was
room, else the same number. -/
theorem triggerCaddyReload_chan (m : Manager) :
    m.triggerCaddyReload.caddyReload.cap = m.caddyReload.cap ∧
    m.triggerCaddyReload.caddyReload.len =
      (if m.caddyReload.len < m.caddyReload.cap then m.caddyReload.len + 1
       else m.caddyReload.len) := by
  unfold Manager.triggerCaddyReload
  split <;> exact ⟨rfl, rfl⟩

/-- A channel of the shape `NewManager` makes: capacity 10, at most 10 values. -/
theorem applyOp_chan (m : Manager) (op : Op)
    (h : m.caddyReload.cap = 10 ∧ m.caddyReload.len ≤ 10) :
    (applyOp m op).caddyReload.cap = 10 ∧ (applyOp m op).caddyReload.len ≤ 10 := by
  have key : ∀ m1 : Manager, m1.caddyReload = m.caddyReload →
      m1.triggerCaddyReload.caddyReload.cap = 10 ∧ m1.triggerCaddyReload.caddyReload.len ≤ 10 := by
    intro m1 h1
    have := triggerCaddyReload_chan m1
    rw [h1] at this
    rw [this.1, this.2]
    refine ⟨h.1, ?_⟩
    split <;> omega
  cases op with
  | create req env =>
    show (m.CreateTenant req env).1.caddyReload.cap = 10 ∧ (m.CreateTenant req env).1.caddyReload.len ≤ 10
    rcases CreateTenant_cases m req env with ⟨_, e, he⟩ | ⟨tenant, _, _, _, _, _, hrest⟩
    · rw [he]; exact h
    · rcases hrest with ⟨_, m1, e, he, _, _, hc⟩ | ⟨_, m1, _, _, hc, _, hrest⟩
      · rw [he]; show m1.caddyReload.cap = 10 ∧ _; rw [hc]; exact h
      · rcases hrest with ⟨e, _, he⟩ | ⟨_, he⟩
        · rw [he]
          show (m1.StartTenant tenant.ID env.start).1.caddyReload.cap = 10 ∧ _
          rw [StartTenant_caddyReload, hc]; exact h
        · rw [he]
          exact key _ (by rw [StartTenant_caddyReload, hc])
  | delete id d env =>
    show (m.DeleteTenant id d env).1.caddyReload.cap = 10 ∧ (m.DeleteTenant id d env).1.caddyReload.len ≤ 10
    have h1 := StopTenant_caddyReload m id env.stop
    have h2 := StopTenant_ok m id env.stop
    unfold Manager.DeleteTenant
    split
    · rename_i m1 e heq
      rw [heq] at h2; simp at h2
    · rename_i m1 heq
      rw [heq] at h1
      simp only [Store.RemoveTenant]
      split
      · show m1.caddyReload.cap = 10 ∧ _
        rw [h1]; exact h
      · split
        · exact key _ (by simpa using h1)
        · exact key _ (by simpa using h1)

theorem runOps_chan (ops : List Op) (m : Manager)
    (h : m.caddyReload.cap = 10 ∧ m.caddyReload.len ≤ 10) :
    (runOps m ops).caddyReload.cap = 10 ∧ (runOps m ops).caddyReload.len ≤ 10 := by
  induction ops generalizing m with
  | nil => exact h
  | cons op ops ih => exact ih (applyOp m op) (applyOp_chan m op h)

theorem iterate_trigger_chan (store : Store) (N : Nat) :
    (Nat.iterate Manager.triggerCaddyReload N (NewManager store)).caddyReload.cap = 10 ∧
    (Nat.iterate Manager.triggerCaddyReload N (NewManager store)).caddyReload.len = min N 10 := by
  induction N with
  | zero => exact ⟨rfl, rfl⟩
  | succ n ih =>
    rw [Function.iterate_succ_apply']
    have := triggerCaddyReload_chan (Nat.iterate Manager.triggerCaddyReload n (NewManager store))
    rw [this.1, this.2, ih.1, ih.2]
    refine ⟨rfl, ?_⟩
    split <;> omega

/-- C9, counterexample.  The channel of `NewManager` has room for ten values: after two
emissions with no drain two signals are pending, and the second emission, made while one
signal was pending, raised the number from one to two; the same after two successful
`CreateTenant` calls. -/
theorem two_emissions_leave_two_pending :
    (Nat.iterate Manager.triggerCaddyReload 1 (NewManager (sampleStore []))).caddyReload.len = 1 ∧
    (Nat.iterate Manager.triggerCaddyReload 2 (NewManager (sampleStore []))).caddyReload.len = 2 ∧
    (runOps (NewManager (sampleStore []))
      [.create (sampleRequest "a") (healthyCreate 100),
       .create (sampleRequest "b") (healthyCreate 101)]).caddyReload.len = 2 := by
  decide

/-- C9, amended.  The reload channel coalesces with ten slots: after `N` consecutive
emissions from a new supervisor with no drain the number of pending signals is
`min(N, 10)`; after every sequence of `CreateTenant` and `DeleteTenant` calls with no
drain it is at most 10; an emission made while the channel is full leaves the state
unchanged, and one made while it is not full adds one pending signal. -/
theorem reload_channel_coalesces_at_ten (store : Store) (N : Nat) :
    (Nat.iterate Manager.triggerCaddyReload N (NewManager store)).caddyReload.len = min N 10 ∧
    (Nat.iterate Manager.triggerCaddyReload N (NewManager store)).caddyReload.len ≤ 10 ∧
    (∀ ops, (runOps (NewManager store) ops).caddyReload.len ≤ 10) ∧
    (∀ m : Manager, m.caddyReload.len = m.caddyReload.cap → m.triggerCaddyReload = m) ∧
    (∀ m : Manager, m.caddyReload.len < m.caddyReload.cap →
      m.triggerCaddyReload.caddyReload.len = m.caddyReload.len + 1) := by
  have h := iterate_trigger_chan store N
  refine ⟨h.2, by rw [h.2]; omega, ?_, ?_, ?_⟩
  · intro ops
    exact (runOps_chan ops (NewManager store) ⟨rfl, Nat.zero_le 10⟩).2
  · intro m hm
    unfold Manager.triggerCaddyReload
    simp [hm]
  · intro m hm
    rw [(triggerCaddyReload_chan m).2]
    simp [hm]

/-- C9, instance of the amended statement: the eleventh emission changes nothing. -/
theorem reload_channel_coalesces_at_ten_witness :
    (Nat.iterate Manager.triggerCaddyReload 10 (NewManager (sampleStore []))).triggerCaddyReload
      = Nat.iterate Manager.triggerCaddyReload 10 (NewManager (sampleStore [])) :=
  (reload_channel_coalesces_at_ten (sampleStore []) 10).2.2.2.1
    (Nat.iterate Manager.triggerCaddyReload 10 (NewManager (sampleStore []))) (by decide)

/-! ## Status and registry -/

theorem agreesAt_congr (strict : Bool) (m m1 : Manager) (id : Bytes)
    (hs : m1.store.GetTenant id = m.store.GetTenant id)
    (hp : m1.lookupProcess id = m.lookupProcess id) (h : agreesAt strict m id) :
    agreesAt strict m1 id := by
  unfold agreesAt at *
  rw [hs, hp]; exact h

/-- An operation that changes at most the record and the registry entry of `id0`, and
leaves them in agreement, keeps status and registry in agreement everywhere. -/
theorem StatusAgrees.of_frame {strict : Bytes → Bool} {m : Manager} (h : StatusAgrees strict m)
    (m1 : Manager) (id0 : Bytes)
    (hother : ∀ id, id ≠ id0 → m1.store.GetTenant id = m.store.GetTenant id ∧
      m1.lookupProcess id = m.lookupProcess id)
    (hself : agreesAt (strict id0) m1 id0) : StatusAgrees strict m1 := by
  intro id
  by_cases hid : id = id0
  · rw [hid]; exact hself
  · exact agreesAt_congr (strict id) m m1 id (hother id hid).1 (hother id hid).2 (h id)

theorem StatusAgrees.of_same {strict : Bytes → Bool} {m : Manager} (h : StatusAgrees strict m)
    (m1 : Manager) (hs : m1.store = m.store) (hp : m1.processes = m.processes) :
    StatusAgrees strict m1 := by
  intro id
  exact agreesAt_congr (strict id) m m1 id (by rw [hs])
    (by unfold Manager.lookupProcess; rw [hp]) (h id)

theorem lookupProcess_register_self (m : Manager) (id : Bytes) (p : Process) :
    (m.register id p).lookupProcess id = some p := by
  simp [Manager.lookupProcess, Manager.register]

theorem lookupProcess_register_other (m : Manager) (id id1 : Bytes) (p : Process)
    (h : id1 ≠ id) : (m.register id p).lookupProcess id1 = m.lookupProcess id1 := by
  unfold Manager.lookupProcess Manager.register
  have hne : ¬ id = id1 := fun e => h e.symm
  simp only [List.find?_cons, hne, decide_False]
  congr 1
  apply find?_filter_of_imp
  intro x hx
  simp only [decide_eq_true_eq] at hx
  simp [hx, h]

@[simp] theorem Manager.spawned_store (m : Manager) (id : Bytes) (t : Tenant)
    (env : Manager.StartEnv) : (m.spawned id t env).store = m.store := by
  simp [Manager.spawned]

@[simp] theorem Manager.spawned_processes (m : Manager) (id : Bytes) (t : Tenant)
    (env : Manager.StartEnv) : (m.spawned id t env).processes = m.processes := by
  simp [Manager.spawned]

/-- The record and the registry entries after the registration of a started child. -/
theorem registerStarted_view (m : Manager) (id : Bytes) (t : Tenant) (pid ctx : Nat)
    (env : Manager.StartEnv) (hid : t.ID = id) :
    (m.registerStarted id t pid ctx env).store.GetTenant id =
      some { t with Status := "running", PID := pid, UpdatedAt := env.updatedAt } ∧
    ((m.registerStarted id t pid ctx env).lookupProcess id).isSome = true ∧
    ∀ id1, id1 ≠ id →
      (m.registerStarted id t pid ctx env).store.GetTenant id1 = m.store.GetTenant id1 ∧
      (m.registerStarted id t pid ctx env).lookupProcess id1 = m.lookupProcess id1 := by
  have hst : (m.registerStarted id t pid ctx env).store =
      m.store.put { t with Status := "running", PID := pid, UpdatedAt := env.updatedAt } := by
    simp [Manager.registerStarted, Store.UpdateTenant]
  have hlk : ∀ id1, (m.registerStarted id t pid ctx env).lookupProcess id1 =
      (m.register id (Process.mk id (some pid) env.startedAt ctx)).lookupProcess id1 := by
    intro id1; rfl
  refine ⟨?_, ?_, ?_⟩
  · rw [hst, ← hid]; exact GetTenant_put_self _ _
  · rw [hlk, lookupProcess_register_self]; rfl
  · intro id1 hne
    refine ⟨?_, ?_⟩
    · rw [hst]; exact GetTenant_put_other _ _ _ (by simp [hid, hne])
    · rw [hlk]; exact lookupProcess_register_other _ _ _ _ hne

theorem StartTenant_agrees (strict : Bytes → Bool) (m : Manager) (id : Bytes)
    (env : Manager.StartEnv) (h : StatusAgrees strict m) :
    StatusAgrees strict (m.StartTenant id env).1 := by
  rcases StartTenant_cases m id env with ⟨e, m1, he, hs, hp, _⟩ | ⟨he, _, _⟩ | ⟨t, pid, ht, _, _, he⟩
  · rw [he]; exact h.of_same m1 hs hp
  · rw [he]; exact h
  · rw [he]
    have hid := (GetTenant_some _ _ _ ht).2
    have hv := registerStarted_view (m.spawned id t env) id t pid m.nextCtx env hid
    refine h.of_frame _ id ?_ ?_
    · intro id1 hne
      have := hv.2.2 id1 hne
      refine ⟨by rw [this.1, Manager.spawned_store], ?_⟩
      rw [this.2]; unfold Manager.lookupProcess; rw [Manager.spawned_processes]
    · unfold agreesAt
      rw [hv.1]
      cases hl : (registerStarted (m.spawned id t env) id t pid m.nextCtx env).lookupProcess id with
      | none => rw [hl] at hv; simp at hv
      | some p => rfl

theorem StopTenant_agrees (strict : Bytes → Bool) (m : Manager) (id : Bytes)
    (env : Manager.StopEnv) (h : StatusAgrees strict m) :
    StatusAgrees strict (m.StopTenant id env).1 := by
  cases hp : m.lookupProcess id with
  | none =>
    have : m.StopTenant id env = (m, none) := by
      unfold Manager.StopTenant Manager.stopLookup; rw [hp]
    rw [this]; exact h
  | some proc =>
    have ha := StopTenant_registered_after m id env proc hp
    refine h.of_frame _ id (fun id1 hne => ⟨(ha.2.2.2.2 id1 hne).2, (ha.2.2.2.2 id1 hne).1⟩) ?_
    unfold agreesAt
    rw [ha.2.2.1]
    cases ht : m.store.GetTenant id with
    | none =>
      have hbad := h id
      unfold agreesAt at hbad
      rw [ht, hp] at hbad
      exact hbad.elim
    | some t =>
      rw [ha.2.2.2.1 t ht]
      intro _ hrun
      simp at hrun

/-- The store and the registry after `DeleteTenant`: those `StopTenant` leaves, with the
records of `id` removed. -/
theorem DeleteTenant_view (m : Manager) (id : Bytes) (d : Bool) (env : Manager.DeleteEnv) :
    (m.DeleteTenant id d env).1.store =
      { (m.StopTenant id env.stop).1.store with
        tenants := (m.StopTenant id env.stop).1.store.tenants.filter (fun t => t.ID ≠ id) } ∧
    (m.DeleteTenant id d env).1.processes = (m.StopTenant id env.stop).1.processes := by
  have h2 := StopTenant_ok m id env.stop
  unfold Manager.DeleteTenant
  split
  · rename_i m1 e heq
    rw [heq] at h2; simp at h2
  · rename_i m1 heq
    rw [heq]
    simp only [Store.RemoveTenant]
    split
    · exact ⟨rfl, rfl⟩
    · split <;> simp

theorem DeleteTenant_agrees (strict : Bytes → Bool) (m : Manager) (id : Bytes) (d : Bool)
    (env : Manager.DeleteEnv) (h : StatusAgrees strict m) :
    StatusAgrees strict (m.DeleteTenant id d env).1 := by
  have hs := StopTenant_agrees strict m id env.stop h
  have hv := DeleteTenant_view m id d env
  have hlk : ∀ id1, (m.DeleteTenant id d env).1.lookupProcess id1 =
      (m.StopTenant id env.stop).1.lookupProcess id1 := by
    intro id1; unfold Manager.lookupProcess; rw [hv.2]
  have hnone : (m.StopTenant id env.stop).1.lookupProcess id = none := by
    cases hp : m.lookupProcess id with
    | none =>
      have : m.StopTenant id env.stop = (m, none) := by
        unfold Manager.StopTenant Manager.stopLookup; rw [hp]
      rw [this]; exact hp
    | some proc => exact (StopTenant_registered_after m id env.stop proc hp).2.2.1
  refine hs.of_frame _ id ?_ ?_
  · intro id1 hne
    exact ⟨by rw [hv.1]; exact GetTenant_filter_other _ _ _ hne, hlk id1⟩
  · unfold agreesAt
    rw [hv.1, GetTenant_filter_self, hlk, hnone]
    trivial

theorem triggerCaddyReload_agrees (strict : Bytes → Bool) (m : Manager) (h : StatusAgrees strict m) :
    StatusAgrees strict m.triggerCaddyReload :=
  h.of_same _ (by simp) (by simp)

theorem CreateTenant_agrees (strict : Bytes → Bool) (m : Manager) (req : CreateTenantRequest)
    (env : Manager.CreateEnv) (h : StatusAgrees strict m) :
    StatusAgrees strict (m.CreateTenant req env).1 := by
  rcases CreateTenant_cases m req env with ⟨_, e, he⟩ |
    ⟨tenant, hid, _, hstat, hnone, _, hrest⟩
  · rw [he]; exact h
  · have hreg : m.lookupProcess tenant.ID = none := by
      have hbad := h tenant.ID
      unfold agreesAt at hbad
      rw [hid, hnone] at hbad
      cases hl : m.lookupProcess (sanitizeID req.Subdomain) with
      | none => rw [hid]; exact hl
      | some p => rw [hl] at hbad; exact hbad.elim
    have hadd : ∀ m1 : Manager, m1.store = m.store.put tenant → m1.processes = m.processes →
        StatusAgrees strict m1 := by
      intro m1 hs hp
      have hlk : ∀ id1, m1.lookupProcess id1 = m.lookupProcess id1 := by
        intro id1; unfold Manager.lookupProcess; rw [hp]
      refine h.of_frame m1 tenant.ID ?_ ?_
      · intro id1 hne
        exact ⟨by rw [hs]; exact GetTenant_put_other _ _ _ hne, hlk id1⟩
      · unfold agreesAt
        rw [hs, GetTenant_put_self, hlk, hreg]
        intro _ hrun
        rw [hstat] at hrun
        simp at hrun
    rcases hrest with ⟨_, m1, e, he, hs, hp, _⟩ | ⟨_, m1, hs, hp, _, _, hrest⟩
    · rw [he]; exact hadd m1 hs hp
    · have h1 := StartTenant_agrees strict m1 tenant.ID env.start (hadd m1 hs hp)
      rcases hrest with ⟨e, _, he⟩ | ⟨_, he⟩
      · rw [he]; exact h1
      · rw [he]; exact triggerCaddyReload_agrees strict _ h1

theorem monitorProcess_agrees (strict : Bytes → Bool) (m : Manager) (id : Bytes)
    (env : Manager.MonitorEnv) (h : StatusAgrees strict m) :
    StatusAgrees strict (m.monitorProcess id env).1 := by
  have hu : (m.monitorUnregister id).1 = m.unregister id := by
    unfold Manager.monitorUnregister
    cases hp : m.lookupProcess id with
    | some proc => rfl
    | none =>
      show m = m.unregister id
      unfold Manager.unregister
      have : m.processes.filter (fun e => e.1 ≠ id) = m.processes := by
        rw [List.filter_eq_self]
        intro e he
        unfold Manager.lookupProcess at hp
        rw [Option.map_eq_none', List.find?_eq_none] at hp
        simpa using hp e he
      rw [this]
  have hc : StatusAgrees strict
      ((m.monitorUnregister id).1.monitorClassify id (m.monitorUnregister id).2 env).1 := by
    rw [hu]
    cases ht : m.store.GetTenant id with
    | none =>
      have : ((m.unregister id).monitorClassify id (m.monitorUnregister id).2 env).1
          = m.unregister id := by
        unfold Manager.monitorClassify
        simp [ht]
      rw [this]
      refine h.of_frame _ id ?_ ?_
      · intro id1 hne
        exact ⟨rfl, lookupProcess_unregister_other m id id1 hne⟩
      · unfold agreesAt
        rw [lookupProcess_unregister_self]
        show (match m.store.GetTenant id, (none : Option Process) with
          | some t, some _ => t.Status = "running"
          | some t, none => strict id = true → t.Status ≠ "running"
          | none, some _ => False
          | none, none => True)
        rw [ht]; trivial
    | some t =>
      have hr := monitorClassify_record (m.unregister id) id (m.monitorUnregister id).2 env t ht
      have hid := (GetTenant_some _ _ _ ht).2
      have hlk : ∀ id1, ((m.unregister id).monitorClassify id
          (m.monitorUnregister id).2 env).1.lookupProcess id1 = (m.unregister id).lookupProcess id1 := by
        intro id1; unfold Manager.lookupProcess; rw [hr.2.1]
      refine h.of_frame _ id ?_ ?_
      · intro id1 hne
        refine ⟨?_, by rw [hlk]; exact lookupProcess_unregister_other m id id1 hne⟩
        unfold Manager.monitorClassify
        rw [show (m.unregister id).store.GetTenant id = some t from ht]
        simp only [Store.UpdateTenant]
        exact GetTenant_put_other _ _ _ (by simp [hid, hne])
      · unfold agreesAt
        rw [hr.2.2, hlk, lookupProcess_unregister_self]
        intro _ hrun
        simp only at hrun
        split at hrun <;> simp at hrun
  unfold Manager.monitorProcess
  dsimp only
  split
  · exact StartTenant_agrees strict _ id env.restart hc
  · exact hc

theorem RestartTenant_agrees (strict : Bytes → Bool) (m : Manager) (id : Bytes)
    (senv : Manager.StopEnv) (env : Manager.StartEnv) (h : StatusAgrees strict m) :
    StatusAgrees strict (m.RestartTenant id senv env).1 := by
  have hs := StopTenant_agrees strict m id senv h
  unfold Manager.RestartTenant
  split
  · rename_i m1 e heq
    rw [heq] at hs; exact hs
  · rename_i m1 heq
    rw [heq] at hs
    exact StartTenant_agrees strict m1 id env hs

theorem applyAction_agrees (strict : Bytes → Bool) (m : Manager) (a : Action)
    (h : StatusAgrees strict m) : StatusAgrees strict (applyAction m a) := by
  cases a with
  | create req env => exact CreateTenant_agrees strict m req env h
  | start id env => exact StartTenant_agrees strict m id env h
  | stop id env => exact StopTenant_agrees strict m id env h
  | restart id senv env => exact RestartTenant_agrees strict m id senv env h
  | delete id d env => exact DeleteTenant_agrees strict m id d env h
  | monitorExit id env => exact monitorProcess_agrees strict m id env h

theorem runActions_agrees (strict : Bytes → Bool) (acts : List Action) (m : Manager)
    (h : StatusAgrees strict m) : StatusAgrees strict (runActions m acts) := by
  induction acts generalizing m with
  | nil => exact h
  | cons a acts ih => exact ih (applyAction m a) (applyAction_agrees strict m a h)

theorem Start_agrees (strict : Bytes → Bool) (m : Manager) (envs : Bytes → Manager.StartEnv)
    (h : StatusAgrees strict m) : StatusAgrees strict (m.Start envs) := by
  unfold Manager.Start
  generalize m.store.GetTenants = ts
  induction ts generalizing m with
  | nil => exact h
  | cons t ts ih => exact ih _ (StartTenant_agrees strict m t.ID (envs t.ID) h)

theorem StatusAgrees.running_of_registered {strict : Bytes → Bool} {m : Manager}
    (h : StatusAgrees strict m) (id : Bytes) (t : Tenant) (ht : m.store.GetTenant id = some t)
    (hp : (m.lookupProcess id).isSome = true) : t.Status = "running" := by
  have := h id
  unfold agreesAt at this
  rw [ht] at this
  cases hl : m.lookupProcess id with
  | none => rw [hl] at hp; simp at hp
  | some p => rw [hl] at this; exact this

theorem StatusAgrees.registered_of_running {strict : Bytes → Bool} {m : Manager}
    (h : StatusAgrees strict m) (id : Bytes) (hs : strict id = true) (t : Tenant)
    (ht : m.store.GetTenant id = some t) (hr : t.Status = "running") :
    (m.lookupProcess id).isSome = true := by
  have := h id
  unfold agreesAt at this
  rw [ht] at this
  cases hl : m.lookupProcess id with
  | none => rw [hl] at this; exact absurd hr (this hs)
  | some p => rfl

/-- Agreement in the lax sense everywhere, and in the strict sense on `id`, is agreement
for the selection of `id` alone. -/
theorem StatusAgrees.at_one {m : Manager} (h : StatusAgrees (fun _ => false) m) (id : Bytes)
    (hid : ∀ t, m.store.GetTenant id = some t → t.Status = "running" →
      (m.lookupProcess id).isSome = true) :
    StatusAgrees (fun i => decide (i = id)) m := by
  intro i
  have hi := h i
  unfold agreesAt at hi ⊢
  cases ht : m.store.GetTenant i with
  | none =>
    cases hl : m.lookupProcess i with
    | none => trivial
    | some p => rw [ht, hl] at hi; exact hi
  | some t =>
    cases hl : m.lookupProcess i with
    | some p => rw [ht, hl] at hi; exact hi
    | none =>
      intro hs hr
      have hii : i = id := of_decide_eq_true hs
      subst hii
      have := hid t ht hr
      rw [hl] at this
      exact Bool.noConfusion this

/-- Before `Manager.Start` the registry is empty: status and registry agree in the lax
sense, and in the strict sense on the IDs of which no loaded record has status
`running`. -/
theorem NewManager_agrees (strict : Bytes → Bool) (dataDir : Bytes)
    (file : Option (List (Bytes × Tenant)))
    (h : ∀ id, strict id = true → ∀ stored, file = some stored → ∀ e ∈ stored, e.2.ID = id →
      e.2.Status ≠ "running") :
    StatusAgrees strict (NewManager (NewStore dataDir file)) := by
  intro id
  unfold agreesAt
  have hl : (NewManager (NewStore dataDir file)).lookupProcess id = none := rfl
  rw [hl]
  cases ht : (NewManager (NewStore dataDir file)).store.GetTenant id with
  | none => trivial
  | some t =>
    intro hs
    have hmem := GetTenant_some _ _ _ ht
    cases file with
    | none => simp [NewManager, NewStore, Store.load] at hmem
    | some stored =>
      simp only [NewManager, NewStore, Store.load, List.mem_map] at hmem
      rcases hmem with ⟨⟨e, he, rfl⟩, hid⟩
      exact h id hs stored rfl e he hid

/-- After boot, and after any sequence of actions from there, status and registry agree
in the lax sense. -/
theorem boot_agrees (dataDir : Bytes) (file : Option (List (Bytes × Tenant)))
    (envs : Bytes → Manager.StartEnv) (acts : List Action) :
    StatusAgrees (fun _ => false) (runActions (boot dataDir file envs) acts) :=
  runActions_agrees _ acts _
    (Start_agrees _ _ envs (NewManager_agrees _ dataDir file (fun _ h => Bool.noConfusion h)))

/-- C11, counterexample.  The configuration file holds tenant `acme` with status
`running` (as it is written while the tenant runs and left at shutdown); at boot the start
of `acme` fails; afterwards the record still has status `running` and the registry holds
no process for it. -/
theorem stale_running_status_after_failed_boot :
    keyedByID persistedAcme ∧
    ((boot (ascii "/mnt/data") persistedAcme (fun _ => brokenStart)).store.GetTenant
        (ascii "acme")).map (fun t => t.Status) = some "running" ∧
    (boot (ascii "/mnt/data") persistedAcme (fun _ => brokenStart)).lookupProcess
        (ascii "acme") = none :=
  ⟨by simp [keyedByID, persistedAcme, sampleTenant], by decide, by decide⟩

/-- C11, amended.  Take a configuration file in which every record sits under the key of
its own ID, and a state reachable from boot (records loaded from the file, empty registry,
`Manager.Start`) through completed `CreateTenant`, `StartTenant`, `StopTenant`,
`RestartTenant` and `DeleteTenant` calls and completed runs of the monitor, whatever the
outcome of each start.  (1) A tenant whose ID has a registry entry has status `running`.
(2) For an ID under which the file holds no record with status `running`, the tenant has
status `running` if and only if the registry holds a process for the ID.  (3) For any ID,
when in some state on the way (the state right after boot included) the tenant is
registered or does not have status `running`, then in the state reached the tenant has
status `running` if and only if the registry holds a process for the ID.  What is left
out is a tenant loaded with status `running` whose start at boot failed, for as long as no
later start of it has succeeded. -/
theorem status_agrees_with_registry (dataDir : Bytes) (file : Option (List (Bytes × Tenant)))
    (envs : Bytes → Manager.StartEnv) (acts : List Action) (hkeys : keyedByID file) :
    (∀ id t, (runActions (boot dataDir file envs) acts).store.GetTenant id = some t →
      ((runActions (boot dataDir file envs) acts).lookupProcess id).isSome = true →
      t.Status = "running") ∧
    (∀ id, (∀ stored, file = some stored → ∀ e ∈ stored, e.1 = id → e.2.Status ≠ "running") →
      ∀ t, (runActions (boot dataDir file envs) acts).store.GetTenant id = some t →
        (t.Status = "running" ↔
          ((runActions (boot dataDir file envs) acts).lookupProcess id).isSome = true)) ∧
    (∀ id before after, acts = before ++ after →
      (∀ t, (runActions (boot dataDir file envs) before).store.GetTenant id = some t →
        t.Status = "running" →
        ((runActions (boot dataDir file envs) before).lookupProcess id).isSome = true) →
      ∀ t, (runActions (boot dataDir file envs) acts).store.GetTenant id = some t →
        (t.Status = "running" ↔
          ((runActions (boot dataDir file envs) acts).lookupProcess id).isSome = true)) := by
  refine ⟨?_, ?_, ?_⟩
  · exact fun id t ht hp => (boot_agrees dataDir file envs acts).running_of_registered id t ht hp
  · intro id hfile t ht
    have h0 : StatusAgrees (fun i => decide (i = id)) (NewManager (NewStore dataDir file)) := by
      refine NewManager_agrees _ dataDir file ?_
      intro i hi stored hs e he hid
      have hii : i = id := of_decide_eq_true hi
      subst hii
      have hk : e.1 = e.2.ID := by
        subst hs
        exact hkeys e he
      exact hfile stored hs e he (hk.trans hid)
    have h1 := runActions_agrees _ acts _ (Start_agrees _ _ envs h0)
    exact ⟨h1.registered_of_running id (decide_eq_true rfl) t ht,
      h1.running_of_registered id t ht⟩
  · intro id before after hacts hid t ht
    have h0 := (boot_agrees dataDir file envs before).at_one id hid
    have h1 := runActions_agrees _ after _ h0
    have hrun : runActions (runActions (boot dataDir file envs) before) after
        = runActions (boot dataDir file envs) acts := by
      rw [hacts]; unfold runActions; rw [List.foldl_append]
    rw [hrun] at h1
    exact ⟨h1.registered_of_running id (decide_eq_true rfl) t ht,
      h1.running_of_registered id t ht⟩

/-- C11, instance of the amended statement, an ordinary reboot: the file holds `acme`
with status `running`, its start at boot succeeds, then it is stopped, started again, and
its child crashes with a restart that fails; in the state reached `acme` has status
`running` if and only if it is registered. -/
theorem status_agrees_with_registry_witness :
    keyedByID persistedAcme ∧
    ∀ t, (runActions (boot (ascii "/mnt/data") persistedAcme (fun _ => healthyStart 11))
        [.stop (ascii "acme") quickStop, .start (ascii "acme") (healthyStart 12),
         .monitorExit (ascii "acme") { failedExit with restart := brokenStart }]).store.GetTenant
          (ascii "acme") = some t →
      (t.Status = "running" ↔
        ((runActions (boot (ascii "/mnt/data") persistedAcme (fun _ => healthyStart 11))
          [.stop (ascii "acme") quickStop, .start (ascii "acme") (healthyStart 12),
           .monitorExit (ascii "acme") { failedExit with restart := brokenStart }]).lookupProcess
            (ascii "acme")).isSome = true) :=
  ⟨by simp [keyedByID, persistedAcme, sampleTenant],
   (status_agrees_with_registry (ascii "/mnt/data") persistedAcme (fun _ => healthyStart 11)
      [.stop (ascii "acme") quickStop, .start (ascii "acme") (healthyStart 12),
       .monitorExit (ascii "acme") { failedExit with restart := brokenStart }]
      (by simp [keyedByID, persistedAcme, sampleTenant])).2.2 (ascii "acme") []
      [.stop (ascii "acme") quickStop, .start (ascii "acme") (healthyStart 12),
       .monitorExit (ascii "acme") { failedExit with restart := brokenStart }] rfl
      (fun _ _ _ => by decide)⟩

/-! ## Unknown tenants -/

/-- C12.  For an ID that has no record in the store (`GetTenant` of the ID is nil),
`StartTenant` and `GetTenantStatus` each return the not-found error; `StartTenant` leaves
the whole state as it was (same store, same registry, no child spawned, no effect), and
`GetTenantStatus` only reads. -/
theorem unknown_tenant_not_found (m : Manager) (id : Bytes) (env : Manager.StartEnv)
    (domainName : Bytes) (now : Nat) (h : m.store.GetTenant id = none) :
    m.StartTenant id env = (m, some (.tenantNotFound id)) ∧
    m.GetTenantStatus id domainName now = .error (.tenantNotFound id) ∧
    (m.StartTenant id env).1.store = m.store ∧
    (m.StartTenant id env).1.processes = m.processes ∧
    spawnCount (m.StartTenant id env).1 = spawnCount m ∧
    (m.StartTenant id env).1.effects = m.effects := by
  have h1 : m.StartTenant id env = (m, some (.tenantNotFound id)) := by
    unfold Manager.StartTenant; rw [h]
  have h2 : m.GetTenantStatus id domainName now = .error (.tenantNotFound id) := by
    unfold Manager.GetTenantStatus; rw [h]
  rw [h1]
  exact ⟨rfl, h2, rfl, rfl, rfl, rfl⟩

/-- C12, instance: the store holds `acme` only and the ID asked for is `ghost`. -/
theorem unknown_tenant_not_found_witness :
    runningAcme.StartTenant (ascii "ghost") (healthyStart 5)
      = (runningAcme, some (.tenantNotFound (ascii "ghost"))) ∧
    runningAcme.GetTenantStatus (ascii "ghost") (ascii "localhost.direct") 10
      = .error (.tenantNotFound (ascii "ghost")) :=
  have h := unknown_tenant_not_found runningAcme (ascii "ghost") (healthyStart 5)
    (ascii "localhost.direct") 10 (by decide)
  ⟨h.1, h.2.1⟩

/-- C13, the failing inputs.  The store holds `acme` only and nothing is registered for
the IDs below.  For the unknown ID `ghost`, `StartTenant` returns the not-found error, but
`DeleteTenant("ghost", true)` returns nil, calls `os.RemoveAll` on `/mnt/data/ghost` and
puts a reload signal in the channel, and with `deleteData` false it returns nil and
signals a reload as well.  For the unknown ID `.multi-pb` the directory removed is the
one of the supervisor's own configuration and logs, and for `..` it is `/mnt`, the parent
of the data root. -/
theorem delete_unknown_tenant_succeeds :
    runningAcme.store.GetTenant (ascii "ghost") = none ∧
    (runningAcme.StartTenant (ascii "ghost") (healthyStart 5)).2
      = some (.tenantNotFound (ascii "ghost")) ∧
    (runningAcme.DeleteTenant (ascii "ghost") true quickDelete).2 = none ∧
    (runningAcme.DeleteTenant (ascii "ghost") true quickDelete).1.effects
      = [.removeAll (ascii "/mnt/data/ghost")] ∧
    (runningAcme.DeleteTenant (ascii "ghost") true quickDelete).1.caddyReload.len = 1 ∧
    (runningAcme.DeleteTenant (ascii "ghost") false quickDelete).2 = none ∧
    (runningAcme.DeleteTenant (ascii "ghost") false quickDelete).1.caddyReload.len = 1 ∧
    ((runningAcme.DeleteTenant (ascii ".multi-pb") true quickDelete).2 = none ∧
     (runningAcme.DeleteTenant (ascii ".multi-pb") true quickDelete).1.effects
      = [.removeAll (ascii "/mnt/data/.multi-pb")]) ∧
    ((runningAcme.DeleteTenant (ascii "..") true quickDelete).2 = none ∧
     (runningAcme.DeleteTenant (ascii "..") true quickDelete).1.effects
      = [.removeAll (ascii "/mnt")]) := by
  decide

/-! ## Data directories -/

/-- C14, the failing input.  The subdomain `!!!` is not empty, so the API forwards the
request; it normalises to the empty ID, which no tenant holds, so `CreateTenant` accepts
it; the data directory of the new tenant is the data root joined with the empty ID, that
is the data root itself, and the child is started with the data root as its directory. -/
theorem empty_id_takes_the_data_root :
    (sampleRequest "!!!").Subdomain ≠ [] ∧
    sanitizeID (sampleRequest "!!!").Subdomain = [] ∧
    (∃ resp, ((NewManager (sampleStore [sampleTenant "acme" 8081])).CreateTenant
        (sampleRequest "!!!") (healthyCreate 7)).2 = .ok resp ∧
      resp.Tenant.DataDir = (sampleStore [sampleTenant "acme" 8081]).GetDataDir) ∧
    (((NewManager (sampleStore [sampleTenant "acme" 8081])).CreateTenant
        (sampleRequest "!!!") (healthyCreate 7)).1.store.GetTenant []).map (fun t => t.DataDir)
      = some (ascii "/mnt/data") ∧
    Effect.spawn [] (ascii "/mnt/data") 8082 0 ∈
      ((NewManager (sampleStore [sampleTenant "acme" 8081])).CreateTenant
        (sampleRequest "!!!") (healthyCreate 7)).1.effects := by
  refine ⟨by decide, by decide, ⟨_, rfl, by decide⟩, by decide, by decide⟩

theorem sanitizeID_slug (s : Bytes) (b : Nat) (hb : b ∈ sanitizeID s) : isSlugByte b := by
  have h : sanitizeID s = normalise s := by
    unfold sanitizeID
    rw [sanitize_foldl]; simp
  rw [h] at hb
  unfold normalise at hb
  rcases List.mem_filterMap.1 hb with ⟨c, _, hc⟩
  exact normByte_slug c b hc

theorem splitSlash_append (a rest cur : Bytes) :
    splitSlash (a ++ 47 :: rest) cur = splitSlash a cur ++ splitSlash rest [] := by
  induction a generalizing cur with
  | nil => simp [splitSlash]
  | cons c a ih =>
    by_cases hc : c = 47
    · simp [splitSlash, hc, ih]
    · simp [splitSlash, hc, ih]

theorem splitSlash_plain (e cur : Bytes) (h : 47 ∉ e) : splitSlash e cur = [cur ++ e] := by
  induction e generalizing cur with
  | nil => simp [splitSlash]
  | cons c e ih =>
    have hc : c ≠ 47 := fun hc => h (by simp [hc])
    have he : 47 ∉ e := fun he => h (List.mem_cons_of_mem _ he)
    simp [splitSlash, hc, ih _ he]

theorem joinSlash_concat (out : List Bytes) (e : Bytes) :
    joinSlash (out ++ [e]) = if out = [] then e else joinSlash out ++ [47] ++ e := by
  induction out with
  | nil => simp [joinSlash]
  | cons x xs ih =>
    cases xs with
    | nil => simp [joinSlash]
    | cons y ys =>
      have ih1 : joinSlash ((y :: ys) ++ [e]) = joinSlash (y :: ys) ++ [47] ++ e := by
        simpa using ih
      show x ++ [47] ++ joinSlash ((y :: ys) ++ [e]) = _
      rw [ih1]
      simp [joinSlash]

theorem cleanStep_plain (rooted : Bool) (out : List Bytes) (e : Bytes) (h0 : e ≠ [])
    (h1 : e ≠ [46]) (h2 : e ≠ [46, 46]) : cleanStep rooted out e = out ++ [e] := by
  simp [cleanStep, h0, h1, h2]

/-- The join of a rooted directory with a plain element (no separator, not empty, not `.`
nor `..`): the cleaned directory, a separator unless that is the root `/`, the element. -/
theorem joinPath_plain (root : Bytes) (hroot : root.head? = some 47) :
    ∃ sep : Bytes, ∀ e : Bytes, 47 ∉ e → e ≠ [] → e ≠ [46] → e ≠ [46, 46] →
      joinPath root e = joinPath root [] ++ sep ++ e := by
  have hne : root ≠ [] := by
    intro h; rw [h] at hroot; simp at hroot
  have hhead : ∀ e : Bytes, (root ++ [47] ++ e).head? = some 47 := by
    intro e
    cases root with
    | nil => exact absurd rfl hne
    | cons c cs => simpa using hroot
  have hne2 : ∀ e : Bytes, root ++ [47] ++ e ≠ [] := by
    intro e h
    have := hhead e
    rw [h] at this; simp at this
  have hroot0 : joinPath root [] =
      47 :: joinSlash ((splitSlash root []).foldl (cleanStep true) []) := by
    unfold joinPath cleanPath
    simp only [hne, ne_eq, not_false_eq_true, if_true, hne2, if_false, hhead, decide_True]
    rw [List.append_assoc, List.singleton_append, splitSlash_append]
    simp [splitSlash, List.foldl_append, cleanStep]
  have hjoin : ∀ e : Bytes, 47 ∉ e → e ≠ [] → e ≠ [46] → e ≠ [46, 46] → joinPath root e =
      47 :: joinSlash ((splitSlash root []).foldl (cleanStep true) [] ++ [e]) := by
    intro e h47 h0 h1 h2
    unfold joinPath cleanPath
    simp only [hne, ne_eq, not_false_eq_true, if_true, hne2, if_false, hhead, decide_True]
    rw [List.append_assoc, List.singleton_append, splitSlash_append, splitSlash_plain e [] h47]
    simp only [List.nil_append, List.foldl_append, List.foldl_cons, List.foldl_nil]
    rw [cleanStep_plain true _ e h0 h1 h2]
  by_cases hout : (splitSlash root []).foldl (cleanStep true) [] = []
  · refine ⟨[], ?_⟩
    intro e h47 h0 h1 h2
    rw [hjoin e h47 h0 h1 h2, hroot0, joinSlash_concat, hout]
    simp [joinSlash]
  · refine ⟨[47], ?_⟩
    intro e h47 h0 h1 h2
    rw [hjoin e h47 h0 h1 h2, hroot0, joinSlash_concat]
    simp [hout]

/-- The part of C14 that holds: under a rooted data root, when the ID is not empty, the
data directory is strictly below the cleaned data root, is not the directory `.multi-pb`
of the supervisor, and differs from the directory the supervisor uses for any other ID
that is a plain path element. -/
theorem dataDir_isolated_of_nonempty_id (root : Bytes) (sub : Bytes)
    (hroot : root.head? = some 47) (hid : sanitizeID sub ≠ []) :
    (∃ rest : Bytes, rest ≠ [] ∧ joinPath root (sanitizeID sub) = joinPath root [] ++ rest) ∧
    joinPath root (sanitizeID sub) ≠ joinPath root [] ∧
    joinPath root (sanitizeID sub) ≠ joinPath root (ascii ".multi-pb") ∧
    ∀ id1 : Bytes, 47 ∉ id1 → id1 ≠ [46] → id1 ≠ [46, 46] → id1 ≠ sanitizeID sub →
      joinPath root id1 ≠ joinPath root (sanitizeID sub) := by
  rcases joinPath_plain root hroot with ⟨sep, hall⟩
  have hslug : ∀ b ∈ sanitizeID sub, isSlugByte b := sanitizeID_slug sub
  have hnot : ∀ c : Nat, ¬ isSlugByte c → c ∉ sanitizeID sub := fun c hc hm => hc (hslug c hm)
  have h47 : 47 ∉ sanitizeID sub := hnot 47 (by unfold isSlugByte; omega)
  have h46 : 46 ∉ sanitizeID sub := hnot 46 (by unfold isSlugByte; omega)
  have h1 : sanitizeID sub ≠ [46] := fun h => h46 (by rw [h]; simp)
  have h2 : sanitizeID sub ≠ [46, 46] := fun h => h46 (by rw [h]; simp)
  have hself := hall (sanitizeID sub) h47 hid h1 h2
  have hne : ∀ id1 : Bytes, 47 ∉ id1 → id1 ≠ [46] → id1 ≠ [46, 46] → id1 ≠ sanitizeID sub →
      joinPath root id1 ≠ joinPath root (sanitizeID sub) := by
    intro id1 g47 g1 g2 gne heq
    by_cases he : id1 = []
    · rw [he, hself, List.append_assoc] at heq
      have hl := congrArg List.length heq
      have : 0 < (sanitizeID sub).length := List.length_pos.2 hid
      rw [List.length_append, List.length_append] at hl
      omega
    · rw [hall id1 g47 he g1 g2, hself] at heq
      exact gne (List.append_cancel_left heq)
  refine ⟨⟨sep ++ sanitizeID sub, by simp [hid], by rw [hself, List.append_assoc]⟩, ?_, ?_, hne⟩
  · exact fun h => hne [] (by simp) (by simp) (by simp) (fun h0 => hid h0.symm) h.symm
  · refine fun h => hne (ascii ".multi-pb") (by decide) (by decide) (by decide) ?_ h.symm
    intro h
    exact h46 (by rw [← h]; decide)

/-! ## Failing writes of the record store -/

/-- The outcome of the write of `UpdateTenant` does not enter `StartTenant`. -/
theorem StartTenant_ignores_save (m : Manager) (id : Bytes) (env : Manager.StartEnv)
    (b : Bool) : m.StartTenant id { env with saveOK := b } = m.StartTenant id env := rfl

/-- The outcome of the write of `UpdateTenant` does not enter `StopTenant`. -/
theorem StopTenant_ignores_save (m : Manager) (id : Bytes) (env : Manager.StopEnv)
    (b : Bool) : m.StopTenant id { env with saveOK := b } = m.StopTenant id env := rfl

theorem CreateTenant_save_failed (m : Manager) (req : CreateTenantRequest)
    (env : Manager.CreateEnv) (hnone : m.store.GetTenant (sanitizeID req.Subdomain) = none)
    (hmk : env.mkdirOK = true) (hs : env.saveOK = false) :
    (m.CreateTenant req env).2 = .error .saveFailed := by
  unfold Manager.CreateTenant
  simp [hnone, hmk, hs, Store.AddTenant]

theorem DeleteTenant_save_failed (m : Manager) (id : Bytes) (d : Bool)
    (env : Manager.DeleteEnv) (hs : env.saveOK = false) :
    (m.DeleteTenant id d env).2 = some .saveFailed ∧
    (m.DeleteTenant id d env).1.caddyReload = m.caddyReload := by
  have h1 := StopTenant_caddyReload m id env.stop
  have h2 := StopTenant_ok m id env.stop
  unfold Manager.DeleteTenant
  split
  · rename_i m1 e heq
    rw [heq] at h2; simp at h2
  · rename_i m1 heq
    rw [heq] at h1
    simp only [Store.RemoveTenant, hs]
    exact ⟨rfl, h1⟩

/-- C15, counterexample.  (1) `StartTenant` of the stopped tenant `acme` with a failing
write of `UpdateTenant` returns nil, not an error, and the record in memory has changed
to `running`.  (2) `StopTenant` of the running `acme` with a failing write returns nil
and the record has changed to `stopped`.  (3) `CreateTenant` with a failing write of
`AddTenant` returns an error, but the new record is in the store.  (4) `DeleteTenant` with
a failing write of `RemoveTenant` returns an error, but the record is gone. -/
theorem failed_writes_are_kept_in_memory :
    (((NewManager (sampleStore [sampleTenant "acme" 8081])).StartTenant (ascii "acme")
        (unsavedStart 7)).2 = none ∧
     (((NewManager (sampleStore [sampleTenant "acme" 8081])).StartTenant (ascii "acme")
        (unsavedStart 7)).1.store.GetTenant (ascii "acme")).map
          (fun t => t.Status) = some "running") ∧
    ((runningAcme.StopTenant (ascii "acme") unsavedStop).2 = none ∧
     ((runningAcme.StopTenant (ascii "acme") unsavedStop).1.store.GetTenant
        (ascii "acme")).map (fun t => t.Status) = some "stopped") ∧
    (errorOf ((NewManager (sampleStore [])).CreateTenant (sampleRequest "acme")
        unsavedCreate).2 = some .saveFailed ∧
     (((NewManager (sampleStore [])).CreateTenant (sampleRequest "acme")
        unsavedCreate).1.store.GetTenant (ascii "acme")).isSome
          = true) ∧
    ((runningAcme.DeleteTenant (ascii "acme") false unsavedDelete).2
        = some .saveFailed ∧
     (runningAcme.DeleteTenant (ascii "acme") false unsavedDelete).1.store.GetTenant (ascii "acme") = none) := by
  decide

/-- C15, amended.  A failing write to the record store is propagated by `CreateTenant`
and `DeleteTenant` only, and is never undone in memory.  When `AddTenant` fails,
`CreateTenant` returns the error, the new record stays in the store, and no child is
started and no reload signalled.  When `RemoveTenant` fails, `DeleteTenant` returns the
error, the record is gone from the store, and no reload is signalled.  `StartTenant` and
`StopTenant` discard the result of `UpdateTenant`: what they return and the state they
leave are the same whether the write fails or succeeds. -/
theorem write_failures_by_operation (m : Manager) :
    (∀ req env, m.store.GetTenant (sanitizeID req.Subdomain) = none → env.mkdirOK = true →
      env.saveOK = false →
      (m.CreateTenant req env).2 = .error .saveFailed ∧
      (∃ t, t.ID = sanitizeID req.Subdomain ∧ t.Status = "stopped" ∧
        (m.CreateTenant req env).1.store.GetTenant (sanitizeID req.Subdomain) = some t) ∧
      (m.CreateTenant req env).1.processes = m.processes ∧
      (m.CreateTenant req env).1.caddyReload = m.caddyReload) ∧
    (∀ id deleteData env, env.saveOK = false →
      (m.DeleteTenant id deleteData env).2 = some .saveFailed ∧
      (m.DeleteTenant id deleteData env).1.store.GetTenant id = none ∧
      (m.DeleteTenant id deleteData env).1.caddyReload = m.caddyReload) ∧
    (∀ (id : Bytes) (env : Manager.StartEnv), m.StartTenant id { env with saveOK := false }
      = m.StartTenant id { env with saveOK := true }) ∧
    (∀ (id : Bytes) (env : Manager.StopEnv), m.StopTenant id { env with saveOK := false }
      = m.StopTenant id { env with saveOK := true }) := by
  refine ⟨?_, ?_, ?_, ?_⟩
  · intro req env hnone hmk hs
    refine ⟨CreateTenant_save_failed m req env hnone hmk hs, ?_⟩
    rcases CreateTenant_cases m req env with ⟨hc, _⟩ | ⟨tenant, hid, _, hstat, _, _, hrest⟩
    · rcases hc with hc | hc
      · rw [hnone] at hc; simp at hc
      · rw [hmk] at hc; simp at hc
    · rcases hrest with ⟨_, m1, e, he, hst, hp, hc⟩ | ⟨hs1, _⟩
      · rw [he]
        refine ⟨⟨tenant, hid, hstat, ?_⟩, hp, hc⟩
        show m1.store.GetTenant _ = _
        rw [hst, ← hid]; exact GetTenant_put_self _ _
      · rw [hs] at hs1; cases hs1
  · intro id d env hs
    have h := DeleteTenant_save_failed m id d env hs
    refine ⟨h.1, ?_, h.2⟩
    rw [(DeleteTenant_view m id d env).1]
    exact GetTenant_filter_self _ id
  · intro id env
    exact (StartTenant_ignores_save m id env false).trans
      (StartTenant_ignores_save m id env true).symm
  · intro id env
    exact (StopTenant_ignores_save m id env false).trans
      (StopTenant_ignores_save m id env true).symm

/-- C15, instance of the amended statement: a create whose write fails leaves the record
of `acme` in the store. -/
theorem write_failures_by_operation_witness :
    ((NewManager (sampleStore [])).CreateTenant (sampleRequest "acme")
        unsavedCreate).2 = .error .saveFailed ∧
    ∃ t, t.ID = sanitizeID (sampleRequest "acme").Subdomain ∧ t.Status = "stopped" ∧
      ((NewManager (sampleStore [])).CreateTenant (sampleRequest "acme")
        unsavedCreate).1.store.GetTenant
          (sanitizeID (sampleRequest "acme").Subdomain) = some t :=
  have h := (write_failures_by_operation (NewManager (sampleStore []))).1
    (sampleRequest "acme") unsavedCreate
    (by decide) (by decide) (by decide)
  ⟨h.1, h.2.1⟩

/-! ## The registry lock during a start -/

theorem pollTrace_no_mutex_op (probes : Nat → Bool × Bool) (maxRetries : Nat) (left i : Nat) :
    ∀ e ∈ Manager.pollTrace probes maxRetries i left, e.isMutexOp = false := by
  induction left generalizing i with
  | zero => intro e he; simp [Manager.pollTrace] at he
  | succ n ih =>
    intro e he
    unfold Manager.pollTrace at he
    simp only [List.mem_append, List.mem_cons, List.mem_singleton, List.not_mem_nil,
      or_false] at he
    rcases he with (rfl | rfl) | he
    · rfl
    · rfl
    · split at he
      · simp only [List.mem_singleton] at he
        rw [he]; rfl
      · simp only [List.mem_append, List.mem_singleton] at he
        rcases he with rfl | he
        · rfl
        · split at he
          · simp at he
          · split at he
            · simp only [List.mem_singleton] at he
              rw [he]; rfl
            · exact ih (i + 1) e he

/-- The shape of the events of `StartTenant` for a known ID: `Lock`, then events that do
not touch the mutex, then `Unlock`. -/
theorem startTrace_shape (m : Manager) (id : Bytes) (env : Manager.StartEnv) (t : Tenant)
    (ht : m.store.GetTenant id = some t) :
    ∃ body, startTrace m id env = .lock :: body ++ [.unlock] ∧
      ∀ e ∈ body, e.isMutexOp = false := by
  have key : ∀ X : List LockEv, (∀ e ∈ X, e.isMutexOp = false) →
      ∃ body, [LockEv.lock, LockEv.registry] ++ X ++ [LockEv.unlock]
          = LockEv.lock :: body ++ [LockEv.unlock] ∧
        ∀ e ∈ body, e.isMutexOp = false := by
    intro X hX
    refine ⟨LockEv.registry :: X, rfl, ?_⟩
    intro e he
    rcases List.mem_cons.1 he with rfl | he
    · rfl
    · exact hX e he
  unfold startTrace
  rw [ht]
  apply key
  intro e he
  split at he
  · simp at he
  · split at he
    · simp at he
    · split at he
      · simp at he
      · split at he
        · simp at he
        · split at he
          · simp at he
          · simp only [List.mem_cons, List.mem_append, List.cons_append, List.nil_append] at he
            rcases he with rfl | rfl | he
            · rfl
            · rfl
            · split at he
              · simp only [List.mem_singleton] at he
                rw [he]; rfl
              · simp only [List.mem_append] at he
                rcases he with he | he
                · exact pollTrace_no_mutex_op _ _ _ _ e he
                · split at he
                  · simp at he
                  · simp at he
                  · simp only [List.mem_singleton] at he
                    rw [he]; rfl

theorem afterAll_writer_of_no_mutex_op (mu : RWMutex) (evs : List LockEv)
    (h : ∀ e ∈ evs, e.isMutexOp = false) : mu.afterAll evs = mu := by
  induction evs generalizing mu with
  | nil => rfl
  | cons e es ih =>
    have he : e.isMutexOp = false := h e (List.mem_cons_self _ _)
    have hstep : mu.after e = mu := by
      cases e <;> first | rfl | (simp [LockEv.isMutexOp] at he)
    unfold RWMutex.afterAll
    rw [List.foldl_cons, hstep]
    exact ih mu (fun x hx => h x (List.mem_cons_of_mem _ hx))

/-- After any part of a call of `StartTenant` that has begun and not ended, a writer holds
the mutex. -/
theorem startTrace_prefix_locked (m : Manager) (id : Bytes) (env : Manager.StartEnv)
    (t : Tenant) (ht : m.store.GetTenant id = some t) (pre post : List LockEv)
    (h : startTrace m id env = pre ++ post) (hpre : pre ≠ []) (hpost : post ≠ []) :
    RWMutex.free.afterAll pre = { writer := true, readers := 0 } := by
  rcases startTrace_shape m id env t ht with ⟨body, hb, hbody⟩
  rw [hb] at h
  cases pre with
  | nil => exact absurd rfl hpre
  | cons p pre1 =>
    simp only [List.cons_append, List.cons.injEq] at h
    rcases h with ⟨hp, hrest⟩
    have hdl := congrArg List.dropLast hrest
    rw [List.dropLast_concat, List.dropLast_append_of_ne_nil _ hpost] at hdl
    have hsub : ∀ e ∈ pre1, e.isMutexOp = false := by
      intro e he
      exact hbody e (by rw [hdl]; exact List.mem_append_left _ he)
    rw [← hp]
    show (RWMutex.free.after LockEv.lock).afterAll pre1 = _
    exact afterAll_writer_of_no_mutex_op _ pre1 hsub

/-- C16, counterexample.  `StartTenant` for `acme`, whose port answers at the third
readiness probe: the call takes the lock first and releases it last; after its first
eight events it is in the second sleep of the readiness loop, a writer holds the mutex,
and neither `Lock` nor `RLock` can proceed; a `StartTenant`, `StopTenant` or
`GetTenantStatus` for another tenant `beta` begins with one of these. -/
theorem lock_is_held_during_polling :
    startTrace (NewManager (sampleStore [sampleTenant "acme" 8081, sampleTenant "beta" 8082]))
        (ascii "acme") (slowStart 7)
      = [.lock, .registry, .sleep 500, .probe, .sleep 200, .probe, .dial, .sleep 200, .probe,
         .dial, .sleep 200, .probe, .dial, .registry, .unlock] ∧
    (RWMutex.free.afterAll ((startTrace (NewManager (sampleStore [sampleTenant "acme" 8081,
        sampleTenant "beta" 8082])) (ascii "acme") (slowStart 7)).take 8)).writer = true ∧
    (RWMutex.free.afterAll ((startTrace (NewManager (sampleStore [sampleTenant "acme" 8081,
        sampleTenant "beta" 8082])) (ascii "acme") (slowStart 7)).take 8)).enabled .lock = false ∧
    (RWMutex.free.afterAll ((startTrace (NewManager (sampleStore [sampleTenant "acme" 8081,
        sampleTenant "beta" 8082])) (ascii "acme") (slowStart 7)).take 8)).enabled .rlock = false ∧
    (startTrace (NewManager (sampleStore [sampleTenant "acme" 8081, sampleTenant "beta" 8082]))
        (ascii "beta") (healthyStart 8)).head? = some .lock ∧
    (stopTrace (NewManager (sampleStore [sampleTenant "acme" 8081, sampleTenant "beta" 8082]))
        (ascii "beta")).head? = some .lock ∧
    (statusTrace (NewManager (sampleStore [sampleTenant "acme" 8081, sampleTenant "beta" 8082]))
        (ascii "beta")).head? = some .rlock := by
  decide

/-- C16, amended.  `StartTenant` for a known tenant takes the registry lock before it
looks the ID up in the registry and holds it until it returns.  At every point of the
call after its first event and before its last, a writer holds the mutex, so that neither
`Lock` nor `RLock` can proceed: a `StartTenant`, `StopTenant` or `GetTenantStatus` for
another known tenant, each of which begins with one of the two, has to wait for the end
of the call.  When the call reaches the settle delay, that sleep, and all that follows
it, happens under the lock.  The mutex is free again when the call has returned. -/
theorem StartTenant_holds_registry_lock (m : Manager) (id : Bytes)
    (env : Manager.StartEnv) (t : Tenant) (ht : m.store.GetTenant id = some t) :
    (∀ pre post, startTrace m id env = pre ++ post → pre ≠ [] → post ≠ [] →
      (RWMutex.free.afterAll pre).writer = true ∧
      (RWMutex.free.afterAll pre).enabled .lock = false ∧
      (RWMutex.free.afterAll pre).enabled .rlock = false) ∧
    RWMutex.free.afterAll (startTrace m id env) = RWMutex.free ∧
    (m.alreadyRunning id = false → env.mkdirOK = true → env.binaryExists = true →
      env.startOK = true → env.pid.isSome = true →
      ∃ post, startTrace m id env = [.lock, .registry] ++ .sleep 500 :: post ∧ post ≠ []) ∧
    (∀ idB envB, (m.store.GetTenant idB).isSome = true →
      (startTrace m idB envB).head? = some .lock ∧
      (stopTrace m idB).head? = some .lock ∧
      (statusTrace m idB).head? = some .rlock) := by
  refine ⟨?_, ?_, ?_, ?_⟩
  · intro pre post h hpre hpost
    rw [startTrace_prefix_locked m id env t ht pre post h hpre hpost]
    exact ⟨rfl, rfl, rfl⟩
  · rcases startTrace_shape m id env t ht with ⟨body, hb, hbody⟩
    rw [hb]
    show ((RWMutex.free.after LockEv.lock).afterAll (body ++ [LockEv.unlock])) = _
    unfold RWMutex.afterAll
    rw [List.foldl_append]
    have := afterAll_writer_of_no_mutex_op (RWMutex.free.after LockEv.lock) body hbody
    unfold RWMutex.afterAll at this
    rw [this]
    rfl
  · intro hr hmk hbin hst hpid
    unfold startTrace
    rw [ht]
    cases hp : env.pid with
    | none => rw [hp] at hpid; simp at hpid
    | some pid =>
      simp only [hr, hmk, hbin, hst, Bool.not_true, Bool.false_eq_true, if_false]
      exact ⟨_, rfl, by simp⟩
  · intro idB envB hB
    cases hg : m.store.GetTenant idB with
    | none => rw [hg] at hB; simp at hB
    | some tB =>
      refine ⟨?_, rfl, ?_⟩
      · unfold startTrace; rw [hg]; rfl
      · unfold statusTrace; rw [hg]; rfl

/-- C16, instance of the amended statement: during the start of `acme` the mutex is held
after the first two events. -/
theorem StartTenant_holds_registry_lock_witness :
    (RWMutex.free.afterAll [.lock, .registry]).writer = true ∧
    (RWMutex.free.afterAll [.lock, .registry]).enabled .lock = false ∧
    (RWMutex.free.afterAll [.lock, .registry]).enabled .rlock = false :=
  (StartTenant_holds_registry_lock
    (NewManager (sampleStore [sampleTenant "acme" 8081, sampleTenant "beta" 8082]))
    (ascii "acme") (slowStart 7) (sampleTenant "acme" 8081) (by decide)).1
    [.lock, .registry]
    [.sleep 500, .probe, .sleep 200, .probe, .dial, .sleep 200, .probe,
      .dial, .sleep 200, .probe, .dial, .registry, .unlock]
    (by decide) (by decide) (by decide)

/-! ## The tail of the log -/

theorem lastLines_of_le (n : Nat) (L : List Bytes) (h : L.length ≤ n) : lastLines n L = L := by
  unfold lastLines
  have : L.length - n = 0 := by omega
  rw [this]; rfl

theorem lastLines_cons_of_ge (n : Nat) (x : Bytes) (L : List Bytes) (h : n ≤ L.length) :
    lastLines n (x :: L) = lastLines n L := by
  unfold lastLines
  have : (x :: L).length - n = (L.length - n) + 1 := by simp; omega
  rw [this]; rfl

theorem lastLines_length (n : Nat) (L : List Bytes) : (lastLines n L).length = min n L.length := by
  unfold lastLines
  rw [List.length_drop]; omega

/-- The loop of `readLastLogLines` keeps a window of the last `n` lines. -/
theorem window_foldl (n : Nat) (hn : 1 ≤ n) (L acc : List Bytes) (hacc : acc.length ≤ n) :
    L.foldl (fun result l =>
        let result := result ++ [l]
        if (result.length : Int) > (n : Int) then result.drop 1 else result) acc
      = lastLines n (acc ++ L) := by
  induction L generalizing acc with
  | nil => simp [lastLines_of_le n acc hacc]
  | cons l ls ih =>
    rw [List.foldl_cons]
    dsimp only
    by_cases hlt : ((acc ++ [l]).length : Int) > (n : Int)
    · rw [if_pos hlt]
      have hlen : acc.length = n := by
        have h1 : (acc ++ [l]).length = acc.length + 1 := by simp
        rw [h1] at hlt
        omega
      cases acc with
      | nil => simp at hlen; omega
      | cons a as =>
        have hd : (a :: as ++ [l]).drop 1 = as ++ [l] := rfl
        rw [hd, ih (as ++ [l]) (by simp at hlen ⊢; omega)]
        rw [List.append_assoc, List.singleton_append, List.cons_append,
          lastLines_cons_of_ge n a (as ++ l :: ls) (by simp at hlen ⊢; omega)]
    · rw [if_neg hlt]
      have h1 : (acc ++ [l]).length = acc.length + 1 := by simp
      rw [ih (acc ++ [l]) (by rw [h1] at hlt ⊢; omega)]
      rw [List.append_assoc, List.singleton_append]

theorem readLastLogLines_eq (m : Manager) (id : Bytes) (n : Nat) (hn : 1 ≤ n)
    (content : Bytes) (h : m.logOf id = some content) :
    m.readLastLogLines id (n : Int) = joinLines (lastLines n (scanLines content)) := by
  unfold Manager.readLastLogLines
  rw [h]
  dsimp only
  rw [window_foldl n hn (scanLines content) [] (by simp)]
  simp only [List.nil_append]
  split
  · rename_i h0
    rw [List.length_eq_zero] at h0
    rw [h0]; rfl
  · rfl

theorem splitLines_replicate (k : Nat) (rest cur : Bytes) :
    splitLines (List.replicate k 97 ++ rest) cur = splitLines rest (cur ++ List.replicate k 97) := by
  induction k generalizing cur with
  | zero => simp
  | succ k ih =>
    rw [List.replicate_succ, List.cons_append, splitLines]
    simp only [show ¬ (97 : Nat) = 10 by decide, if_false]
    rw [ih]
    simp [List.replicate_succ]

theorem splitLines_long (k : Nat) :
    splitLines (List.replicate k 97 ++ [10, 120, 10]) [] = [List.replicate k 97, [120]] := by
  rw [splitLines_replicate]
  simp [splitLines]

theorem scanLines_long (k : Nat) (hk : 65536 ≤ k) :
    scanLines (List.replicate k 97 ++ [10, 120, 10]) = [] := by
  unfold scanLines
  rw [splitLines_long]
  have : ¬ k < 65536 := by omega
  simp [List.takeWhile, this]

theorem joinLines_long (k : Nat) :
    joinLines (lastLines 10 [List.replicate k 97, [120]]) ≠ [] := by
  simp [lastLines, joinLines]

/-- C17, counterexample.  The log file of `acme` holds a line of 65536 bytes and then the
line `x`: its two lines are that line and `x`, but the scanner gives up at the first
line, which does not fit its buffer, and `readLastLogLines(id, 10)` returns the empty
string, not the two lines joined by a newline. -/
theorem overlong_line_hides_the_tail :
    splitLines longLineLog [] = [List.replicate 65536 97, [120]] ∧
    ((NewManager (sampleStore [])).setLog (ascii "acme") longLineLog).readLastLogLines
      (ascii "acme") 10 = [] ∧
    joinLines (lastLines 10 (splitLines longLineLog [])) ≠ [] := by
  have hsplit : splitLines longLineLog [] = [List.replicate 65536 97, [120]] :=
    splitLines_long 65536
  refine ⟨hsplit, ?_, ?_⟩
  · have hlog : ((NewManager (sampleStore [])).setLog (ascii "acme") longLineLog).logOf
        (ascii "acme") = some longLineLog := by
      simp [Manager.logOf, Manager.setLog]
    have h := readLastLogLines_eq _ (ascii "acme") 10 (by decide) longLineLog hlog
    have hscan : scanLines longLineLog = [] := scanLines_long 65536 (le_refl _)
    rw [hscan] at h
    exact h
  · rw [hsplit]
    exact joinLines_long 65536

/-- C17, amended.  For every `n ≥ 1`, `readLastLogLines(id, n)` returns the empty string
when the log file cannot be opened; otherwise, with `L` the lines the scanner yields from
the content (the pieces between newline bytes, each without one trailing carriage return,
up to the first piece of 65536 bytes or more, where scanning stops), it returns the last
`min(n, |L|)` lines of `L` in their order, joined by single newline bytes, which is the
empty string when `L` is empty.  When every piece of the content is shorter than 65536
bytes, `L` is the list of all its pieces. -/
theorem readLastLogLines_tail (m : Manager) (id : Bytes) (n : Nat) (hn : 1 ≤ n) :
    (m.logOf id = none → m.readLastLogLines id (n : Int) = []) ∧
    (∀ content, m.logOf id = some content →
      m.readLastLogLines id (n : Int) = joinLines (lastLines n (scanLines content)) ∧
      (lastLines n (scanLines content)).length = min n (scanLines content).length ∧
      (lastLines n (scanLines content)) <:+ scanLines content ∧
      (scanLines content = [] → m.readLastLogLines id (n : Int) = []) ∧
      ((∀ l ∈ splitLines content [], l.length < 65536) →
        scanLines content = (splitLines content []).map dropCR)) := by
  constructor
  · intro h
    unfold Manager.readLastLogLines
    rw [h]
  · intro content h
    have heq := readLastLogLines_eq m id n hn content h
    refine ⟨heq, lastLines_length n _, List.drop_suffix _ _, ?_, ?_⟩
    · intro h0
      rw [heq, h0]
      simp [lastLines, joinLines]
    · intro hshort
      unfold scanLines
      congr 1
      rw [List.takeWhile_eq_self_iff]
      intro l hl
      simpa using hshort l hl

/-- C17, instance of the amended statement: of the three lines `a`, `b`, `c` the last two
are returned, joined by a newline. -/
theorem readLastLogLines_tail_witness :
    ((NewManager (sampleStore [])).setLog (ascii "acme") (ascii "a\nb\nc\n")).readLastLogLines
        (ascii "acme") ((2 : Nat) : Int)
      = joinLines (lastLines 2 (scanLines (ascii "a\nb\nc\n"))) ∧
    joinLines (lastLines 2 (scanLines (ascii "a\nb\nc\n"))) = ascii "b\nc" :=
  ⟨((readLastLogLines_tail ((NewManager (sampleStore [])).setLog (ascii "acme")
      (ascii "a\nb\nc\n")) (ascii "acme") 2 (by decide)).2 (ascii "a\nb\nc\n")
      (by decide)).1, by decide⟩

/-! ## A create whose start fails -/

/-- What is known when `CreateTenant` returns the error of its `StartTenant` step: the ID
was free, the directory was made, the record was added and written, and the start, run
on the state with the new record, failed. -/
theorem CreateTenant_start_failed (m : Manager) (req : CreateTenantRequest)
    (env : Manager.CreateEnv) (e : Err)
    (hfail : (m.CreateTenant req env).2 = .error (.startTenantFailed e)) :
    m.store.GetTenant (sanitizeID req.Subdomain) = none ∧
    ∃ (tenant : Tenant) (m1 : Manager), tenant.ID = sanitizeID req.Subdomain ∧ tenant.Status = "stopped" ∧
      tenant.Port = m.store.GetNextPort ∧
      m1.store = m.store.put tenant ∧ m1.caddyReload = m.caddyReload ∧
      m1.processes = m.processes ∧
      (m1.StartTenant tenant.ID env.start).2 = some e ∧
      (m.CreateTenant req env).1 = (m1.StartTenant tenant.ID env.start).1 := by
  rcases CreateTenant_cases m req env with ⟨hc, e0, he⟩ |
    ⟨tenant, hid, hport, hstat, hnone, hmk, hrest⟩
  · exfalso
    unfold Manager.CreateTenant at hfail
    rcases hc with hc | hc
    · simp [hc] at hfail
    · by_cases hs : (m.store.GetTenant (sanitizeID req.Subdomain)).isSome = true
      · simp [hs] at hfail
      · simp [hs, hc] at hfail
  · refine ⟨hnone, ?_⟩
    rcases hrest with ⟨hs, m1, e1, he, _⟩ | ⟨_, m1, hst, hp, hc, _, hrest⟩
    · exfalso
      have := CreateTenant_save_failed m req env hnone hmk hs
      rw [this] at hfail
      cases hfail
    · rcases hrest with ⟨e1, hs1, he⟩ | ⟨_, he⟩
      · rw [he] at hfail
        simp only [Except.error.injEq, Err.startTenantFailed.injEq] at hfail
        subst hfail
        exact ⟨tenant, m1, hid, hstat, hport, hst, hc, hp, hs1, by rw [he]⟩
      · rw [he] at hfail
        cases hfail

theorem CreateTenant_exists (m : Manager) (req : CreateTenantRequest)
    (env : Manager.CreateEnv) (h : (m.store.GetTenant (sanitizeID req.Subdomain)).isSome = true) :
    m.CreateTenant req env = (m, .error (.alreadyExists req.Subdomain)) := by
  unfold Manager.CreateTenant
  simp [h]

theorem maxPortOf_put_le (s : Store) (t : Tenant) (B : Int) (h1 : maxPortOf s ≤ B)
    (h2 : t.Port ≤ B) : maxPortOf (s.put t) ≤ B := by
  have hb := (maxPortOf_le_iff s B).1 h1
  rw [maxPortOf_le_iff]
  refine ⟨hb.1, ?_⟩
  intro u hu
  rcases List.mem_cons.1 hu with rfl | hu
  · exact h2
  · exact hb.2 u (List.mem_of_mem_filter hu)

/-- C18, counterexample.  (1) The store holds a tenant on port 2^63-2; a create whose
start fails leaves tenant `b` on port 2^63-1, and the next create, for `c`, is given the
wrapped-around port -2^63, which is not larger.  (2) After the failed create of `acme`, a
create for the different subdomain `Acme` is not given a port: it fails with the
already-exists error, the two subdomains having the same ID. -/
theorem next_port_after_failed_create_not_larger :
    (((runOps (NewManager (sampleStore [sampleTenant "a" 9223372036854775806]))
        [.create (sampleRequest "b") brokenCreate]).store.GetTenant (ascii "b")).map
          (fun t => t.Port) = some 9223372036854775807 ∧
     ((runOps (NewManager (sampleStore [sampleTenant "a" 9223372036854775806]))
        [.create (sampleRequest "b") brokenCreate,
         .create (sampleRequest "c") brokenCreate]).store.GetTenant (ascii "c")).map
          (fun t => t.Port) = some (-9223372036854775808)) ∧
    (sampleRequest "Acme").Subdomain ≠ (sampleRequest "acme").Subdomain ∧
    errorOf (((NewManager (sampleStore [])).CreateTenant (sampleRequest "acme")
        brokenCreate).1.CreateTenant (sampleRequest "Acme") (healthyCreate 7)).2
      = some (.alreadyExists (ascii "Acme")) := by
  decide

/-- C18, amended.  When `CreateTenant` returns the error of its `StartTenant` step (so the
ID was new and the record had been added), nothing is rolled back: no reload signal is
emitted, the registry is as before, and the new record is in the store with status
`stopped` and the port `GetNextPort` gave.  Hence a following `CreateTenant` whose
subdomain normalises to the same ID returns the already-exists error and changes nothing,
and a following `CreateTenant` that stores a tenant under another, free ID gives it a
strictly larger port, provided the ports stay below the largest Go `int`. -/
theorem CreateTenant_not_rolled_back (m : Manager) (req : CreateTenantRequest)
    (env : Manager.CreateEnv) (e : Err)
    (hfail : (m.CreateTenant req env).2 = .error (.startTenantFailed e)) :
    m.store.GetTenant (sanitizeID req.Subdomain) = none ∧
    (m.CreateTenant req env).1.caddyReload = m.caddyReload ∧
    (m.CreateTenant req env).1.processes = m.processes ∧
    (∃ t, (m.CreateTenant req env).1.store.GetTenant (sanitizeID req.Subdomain) = some t ∧
      t.Status = "stopped" ∧ t.Port = m.store.GetNextPort) ∧
    (∀ req2 env2, sanitizeID req2.Subdomain = sanitizeID req.Subdomain →
      (m.CreateTenant req env).1.CreateTenant req2 env2
        = ((m.CreateTenant req env).1, .error (.alreadyExists req2.Subdomain))) ∧
    (∀ req2 env2,
      (m.CreateTenant req env).1.store.GetTenant (sanitizeID req2.Subdomain) = none →
      env2.mkdirOK = true → maxPortOf m.store + 1 < maxInt64 →
      ∃ t2, ((m.CreateTenant req env).1.CreateTenant req2 env2).1.store.GetTenant
          (sanitizeID req2.Subdomain) = some t2 ∧
        m.store.GetNextPort < t2.Port) := by
  rcases CreateTenant_start_failed m req env e hfail with
    ⟨hnone, tenant, m1, hid, hstat, hport, hst, hc, hp, hs1, hfin⟩
  have hstart : (m1.StartTenant tenant.ID env.start).1.store = m1.store ∧
      (m1.StartTenant tenant.ID env.start).1.processes = m1.processes ∧
      (m1.StartTenant tenant.ID env.start).1.caddyReload = m1.caddyReload := by
    rcases StartTenant_cases m1 tenant.ID env.start with
      ⟨e1, m2, h, hs, hpr, hcr⟩ | ⟨h, _, _⟩ | ⟨t, pid, _, _, _, h⟩
    · rw [h]; exact ⟨hs, hpr, hcr⟩
    · rw [h]; exact ⟨rfl, rfl, rfl⟩
    · rw [h] at hs1; cases hs1
  have hstore : (m.CreateTenant req env).1.store = m.store.put tenant := by
    rw [hfin, hstart.1, hst]
  have hrec : (m.CreateTenant req env).1.store.GetTenant (sanitizeID req.Subdomain)
      = some tenant := by
    rw [hstore, ← hid]; exact GetTenant_put_self _ _
  refine ⟨hnone, by rw [hfin, hstart.2.2, hc], by rw [hfin, hstart.2.1, hp],
    ⟨tenant, hrec, hstat, hport⟩, ?_, ?_⟩
  · intro req2 env2 hsame
    exact CreateTenant_exists _ req2 env2 (by rw [hsame, hrec]; rfl)
  · intro req2 env2 hnone2 hmk2 hb
    rcases CreateTenant_record _ req2 env2 hnone2 hmk2 with ⟨t2, hid2, hport2, hs2⟩
    refine ⟨t2, by rw [hs2, ← hid2]; exact GetTenant_put_self _ _, ?_⟩
    have hnext : m.store.GetNextPort = maxPortOf m.store + 1 :=
      GetNextPort_exact _ (by omega)
    have hle : maxPortOf (m.CreateTenant req env).1.store ≤ maxPortOf m.store + 1 := by
      rw [hstore]
      exact maxPortOf_put_le _ _ _ (by omega) (by rw [hport, hnext])
    have hge : tenant.Port ≤ maxPortOf (m.CreateTenant req env).1.store := by
      apply port_le_maxPortOf
      rw [hstore]
      exact List.mem_cons_self _ _
    have h2 := GetNextPort_exact (m.CreateTenant req env).1.store (by omega)
    rw [hport2, h2, hnext]
    rw [hport, hnext] at hge
    omega

/-- C18, instance of the amended statement: the create of `acme` fails at the start, and
the record stays with status `stopped` and port 8081. -/
theorem CreateTenant_not_rolled_back_witness :
    ∃ t, ((NewManager (sampleStore [])).CreateTenant (sampleRequest "acme")
        brokenCreate).1.store.GetTenant (sanitizeID (sampleRequest "acme").Subdomain) = some t ∧
      t.Status = "stopped" ∧ t.Port = (NewManager (sampleStore [])).store.GetNextPort :=
  (CreateTenant_not_rolled_back (NewManager (sampleStore [])) (sampleRequest "acme")
    brokenCreate .binaryNotFound rfl).2.2.2.1

end MultiPB
